import Mathlib

/-!
# Snapshot inventory (`snapshot.go`): embedding and verification

Go strings are byte sequences; a byte is a natural number below 256.
Pointers (`*string`, `*time.Time`) are `Option`s, `nil` being `none`.
A Go `error` value is `Option Error`, `nil` being `none`; a nil slice is `[]`.
-/

namespace PgUpgrade

/-! ## Data model -/

/-- One byte of a Go string. -/
abbrev Byte := Nat

/-- A Go `string`: its bytes in order. -/
abbrev GoString := List Byte

/-- The bytes of an ASCII literal. -/
def ascii (s : String) : GoString := s.toList.map Char.toNat

/-- A Go `error` value that is not nil. -/
structure Error where
  msg : String
deriving DecidableEq, Repr

/-- The Go `time.Time`, without monotonic reading: the instant as seconds since the Unix epoch
plus nanoseconds within the second, and the offset east of UTC, in seconds, of its location at
that instant. -/
structure Time where
  sec : Int
  nsec : Nat
  offset : Int
deriving DecidableEq, Repr

/-- Go `Time.After`: compares instants, `ts > us || ts == us && t.nsec() > u.nsec()`. -/
def Time.After (t u : Time) : Bool :=
  decide (t.sec > u.sec) || (decide (t.sec = u.sec) && decide (t.nsec > u.nsec))

/-- The instant of `c` is the instant of `t` or an earlier one. -/
def Time.atOrBefore (c t : Time) : Prop :=
  c.sec < t.sec ∨ (c.sec = t.sec ∧ c.nsec ≤ t.nsec)

/-- Unified snapshot model (`type Snapshot struct`). -/
structure Snapshot where
  SnapshotIdentifier : GoString
  SnapshotARN : GoString
  ResourceIdentifier : GoString
  SnapshotCreateTime : Time
  Status : GoString
  SnapshotScope : GoString
deriving DecidableEq, Repr

/-- The fields of the provider's `types.DBClusterSnapshot` that the program reads. -/
structure DBClusterSnapshot where
  DBClusterSnapshotIdentifier : Option GoString
  DBClusterSnapshotArn : Option GoString
  DBClusterIdentifier : Option GoString
  SnapshotCreateTime : Option Time
  Status : Option GoString
deriving DecidableEq, Repr

/-- The fields of the provider's `types.DBSnapshot` that the program reads. -/
structure DBSnapshot where
  DBSnapshotIdentifier : Option GoString
  DBSnapshotArn : Option GoString
  DBInstanceIdentifier : Option GoString
  SnapshotCreateTime : Option Time
  Status : Option GoString
deriving DecidableEq, Repr

/-- The outcome of one `paginator.NextPage(ctx)` call: an error, or the records of the page. -/
inductive PageResult (α : Type) where
  | err (e : Error)
  | page (records : List α)
deriving DecidableEq, Repr

/-- The page retrieval failed. -/
def PageResult.failed {α : Type} : PageResult α → Bool
  | .err _ => true
  | .page _ => false

/-- Go `aws.ToString`: the pointed-to string, or the empty string for nil. -/
def aws.ToString (p : Option GoString) : GoString :=
  match p with
  | some s => s
  | none => []

/-! ## Fetchers

The paginator is given by the sequence of outcomes its successive `NextPage` calls yield;
`HasMorePages` holds while that sequence is not exhausted. -/

/-- The inner loop `for _, s := range out.DBClusterSnapshots` with its accumulator. -/
def clusterPageLoop (startTime : Time) : List DBClusterSnapshot → List Snapshot → List Snapshot
  | [], snapshots => snapshots
  | s :: rest, snapshots =>
    match s.SnapshotCreateTime with
    | some t =>
      if t.After startTime then
        clusterPageLoop startTime rest (snapshots ++ [{
          SnapshotIdentifier := aws.ToString s.DBClusterSnapshotIdentifier
          SnapshotARN := aws.ToString s.DBClusterSnapshotArn
          ResourceIdentifier := aws.ToString s.DBClusterIdentifier
          SnapshotCreateTime := t
          Status := aws.ToString s.Status
          SnapshotScope := ascii "CLUSTER" }])
      else clusterPageLoop startTime rest snapshots
    | none => clusterPageLoop startTime rest snapshots

/-- The outer loop `for paginator.HasMorePages()` of `fetchClusterSnapshots`. -/
def clusterLoop (startTime : Time) :
    List (PageResult DBClusterSnapshot) → List Snapshot → List Snapshot × Option Error
  | [], snapshots => (snapshots, none)
  | .err e :: _, _ => ([], some e)
  | .page out :: rest, snapshots =>
    clusterLoop startTime rest (clusterPageLoop startTime out snapshots)

/-- Go `fetchClusterSnapshots`: the returned pair `([]Snapshot, error)`. -/
def fetchClusterSnapshots (pages : List (PageResult DBClusterSnapshot)) (startTime : Time) :
    List Snapshot × Option Error :=
  clusterLoop startTime pages []

/-- The inner loop `for _, s := range out.DBSnapshots` with its accumulator. -/
def instancePageLoop (startTime : Time) : List DBSnapshot → List Snapshot → List Snapshot
  | [], snapshots => snapshots
  | s :: rest, snapshots =>
    match s.SnapshotCreateTime with
    | some t =>
      if t.After startTime then
        instancePageLoop startTime rest (snapshots ++ [{
          SnapshotIdentifier := aws.ToString s.DBSnapshotIdentifier
          SnapshotARN := aws.ToString s.DBSnapshotArn
          ResourceIdentifier := aws.ToString s.DBInstanceIdentifier
          SnapshotCreateTime := t
          Status := aws.ToString s.Status
          SnapshotScope := ascii "INSTANCE" }])
      else instancePageLoop startTime rest snapshots
    | none => instancePageLoop startTime rest snapshots

/-- The outer loop `for paginator.HasMorePages()` of `fetchInstanceSnapshots`. -/
def instanceLoop (startTime : Time) :
    List (PageResult DBSnapshot) → List Snapshot → List Snapshot × Option Error
  | [], snapshots => (snapshots, none)
  | .err e :: _, _ => ([], some e)
  | .page out :: rest, snapshots =>
    instanceLoop startTime rest (instancePageLoop startTime out snapshots)

/-- Go `fetchInstanceSnapshots`: the returned pair `([]Snapshot, error)`. -/
def fetchInstanceSnapshots (pages : List (PageResult DBSnapshot)) (startTime : Time) :
    List Snapshot × Option Error :=
  instanceLoop startTime pages []

/-! ## Reference descriptions of the fetchers, in the words of the specification -/

/-- The unified record a cluster record maps to when its creation time is present and strictly
later than the threshold; nothing otherwise. -/
def acceptCluster (startTime : Time) (s : DBClusterSnapshot) : Option Snapshot :=
  match s.SnapshotCreateTime with
  | some t =>
    if t.After startTime then
      some {
        SnapshotIdentifier := aws.ToString s.DBClusterSnapshotIdentifier
        SnapshotARN := aws.ToString s.DBClusterSnapshotArn
        ResourceIdentifier := aws.ToString s.DBClusterIdentifier
        SnapshotCreateTime := t
        Status := aws.ToString s.Status
        SnapshotScope := ascii "CLUSTER" }
    else none
  | none => none

/-- The unified record an instance record maps to when its creation time is present and strictly
later than the threshold; nothing otherwise. -/
def acceptInstance (startTime : Time) (s : DBSnapshot) : Option Snapshot :=
  match s.SnapshotCreateTime with
  | some t =>
    if t.After startTime then
      some {
        SnapshotIdentifier := aws.ToString s.DBSnapshotIdentifier
        SnapshotARN := aws.ToString s.DBSnapshotArn
        ResourceIdentifier := aws.ToString s.DBInstanceIdentifier
        SnapshotCreateTime := t
        Status := aws.ToString s.Status
        SnapshotScope := ascii "INSTANCE" }
    else none
  | none => none

/-- The instance record carrying the same identifier, ARN, owning-resource identifier, creation
time and status as a cluster record. -/
def sameAsCluster (c : DBClusterSnapshot) : DBSnapshot where
  DBSnapshotIdentifier := c.DBClusterSnapshotIdentifier
  DBSnapshotArn := c.DBClusterSnapshotArn
  DBInstanceIdentifier := c.DBClusterIdentifier
  SnapshotCreateTime := c.SnapshotCreateTime
  Status := c.Status

/-- Page outcomes with every record replaced by its image. -/
def PageResult.map {α β : Type} (f : α → β) : PageResult α → PageResult β
  | .err e => .err e
  | .page records => .page (records.map f)

/-- A creation time is missing, or at the threshold or earlier. -/
def stale (startTime : Time) (created : Option Time) : Bool :=
  match created with
  | some t => !t.After startTime
  | none => true

/-- Page outcomes with the records satisfying `p` removed. -/
def PageResult.discard {α : Type} (p : α → Bool) : PageResult α → PageResult α
  | .err e => .err e
  | .page records => .page (records.filter fun r => !p r)

/-- The error of the first page retrieval that fails, if any does. -/
def firstError {α : Type} : List (PageResult α) → Option Error
  | [] => none
  | .err e :: _ => some e
  | .page _ :: rest => firstError rest

/-- The records of all retrieved pages, in page order, then order within the page. -/
def records {α : Type} : List (PageResult α) → List α
  | [] => []
  | .err _ :: rest => records rest
  | .page rs :: rest => rs ++ records rest

/-- The snapshot with its scope tag replaced. -/
def Snapshot.withScope (s : Snapshot) (scope : GoString) : Snapshot :=
  { s with SnapshotScope := scope }

/-- A time of day taken as "now" in the scenarios: 2024-11-04T10:40:00Z. -/
def scenarioNow : Time := { sec := 1730716800, nsec := 0, offset := 0 }

/-- The threshold of the scenarios, 7 days before `scenarioNow`: 2024-10-28T10:40:00Z. -/
def scenarioThreshold : Time := { scenarioNow with sec := scenarioNow.sec - 7 * 86400 }

/-- A cluster record of the scenarios, created the given number of days before `scenarioNow`. -/
def scenarioRecord (name : String) (daysAgo : Int) : DBClusterSnapshot where
  DBClusterSnapshotIdentifier := some (ascii name)
  DBClusterSnapshotArn := some (ascii "arn:aws:rds:us-east-1:1:cluster-snapshot:" ++ ascii name)
  DBClusterIdentifier := some (ascii "db1")
  SnapshotCreateTime := some { scenarioNow with sec := scenarioNow.sec - daysAgo * 86400 }
  Status := some (ascii "available")

/-! ## The output file and the device under it -/

/-- The file `rds_snapshots.csv` and the device holding it. `content` is `none` while the file
does not exist. `room` is the number of further bytes the device accepts before writes start to
fail (disk full); `failed` records that some write to the file has failed. -/
structure Disk where
  content : Option GoString
  room : Nat
  createErr : Option Error
  writeErr : Error
  failed : Bool
deriving DecidableEq, Repr

/-- Go `os.Create`: creates or truncates the file, or fails and leaves it alone. -/
def os.Create (d : Disk) : Disk × Option Error :=
  match d.createErr with
  | some e => (d, some e)
  | none => ({ d with content := some [] }, none)

/-- Go `(*os.File).Write`: the bytes that fit are written; when not all fit, the call reports
how many were written together with the device error. -/
def Disk.Write (d : Disk) (b : GoString) : Nat × Disk × Option Error :=
  if b.length ≤ d.room then
    (b.length, { d with content := some (d.content.getD [] ++ b), room := d.room - b.length }, none)
  else
    (d.room, { d with content := some (d.content.getD [] ++ b.take d.room), room := 0,
                      failed := true }, some d.writeErr)

/-! ## `bufio.Writer` -/

/-- Go `io.ErrShortWrite`. -/
def io.ErrShortWrite : Error := ⟨"short write"⟩

/-- Go `bufio.Writer` over the file: the sticky error, the buffered bytes `buf[0:n]`, and the
underlying writer. The buffer has the default size. -/
structure bufio.Writer where
  err : Option Error
  buf : GoString
  wr : Disk
deriving DecidableEq, Repr

/-- Go `defaultBufSize` of package `bufio`. -/
def bufio.defaultBufSize : Nat := 4096

/-- Go `bufio.NewWriter`. -/
def bufio.NewWriter (file : Disk) : bufio.Writer := { err := none, buf := [], wr := file }

/-- Go `(*bufio.Writer).Available`. -/
def bufio.Writer.Available (b : bufio.Writer) : Nat := bufio.defaultBufSize - b.buf.length

/-- Go `(*bufio.Writer).Flush`. -/
def bufio.Writer.Flush (b : bufio.Writer) : bufio.Writer × Option Error :=
  match b.err with
  | some e => (b, some e)
  | none =>
    if b.buf.length = 0 then (b, none)
    else
      match b.wr.Write b.buf with
      | (n, wr, err) =>
        let err := if n < b.buf.length ∧ err = none then some io.ErrShortWrite else err
        match err with
        | some e => ({ err := some e, buf := b.buf.drop n, wr := wr }, some e)
        | none => ({ err := none, buf := [], wr := wr }, none)

/-- Go `(*bufio.Writer).WriteByte`. -/
def bufio.Writer.WriteByte (b : bufio.Writer) (c : Byte) : bufio.Writer × Option Error :=
  match b.err with
  | some e => (b, some e)
  | none =>
    if b.Available ≤ 0 then
      match b.Flush with
      | (b1, some _) => (b1, b1.err)
      | (b1, none) => ({ b1 with buf := b1.buf ++ [c] }, none)
    else ({ b with buf := b.buf ++ [c] }, none)

/-- The loop `for len(s) > b.Available() && b.err == nil` of `(*bufio.Writer).WriteString`,
returning the writer and the part of `s` not yet consumed. With an empty buffer the string goes
to the file directly (`*os.File` is an `io.StringWriter`); otherwise the buffer is filled and
flushed. -/
def bufio.Writer.writeStringLoop : Nat → bufio.Writer → GoString → bufio.Writer × GoString
  | 0, b, s => (b, s)
  | fuel + 1, b, s =>
    if s.length > b.Available ∧ b.err = none then
      if b.buf.length = 0 then
        match b.wr.Write s with
        | (n, wr, err) => writeStringLoop fuel { b with wr := wr, err := err } (s.drop n)
      else
        let n := min b.Available s.length
        writeStringLoop fuel ({ b with buf := b.buf ++ s.take n }).Flush.1 (s.drop n)
    else (b, s)

/-- Go `(*bufio.Writer).WriteString`. The loop ends by its condition within two rounds, so the
fuel given is never used up. -/
def bufio.Writer.WriteString (b : bufio.Writer) (s : GoString) : bufio.Writer × Option Error :=
  match bufio.Writer.writeStringLoop (s.length + 2) b s with
  | (b1, s1) =>
    match b1.err with
    | some e => (b1, some e)
    | none => ({ b1 with buf := b1.buf ++ s1 }, none)

/-! ## `encoding/csv` writer

`csv.NewWriter` sets `Comma` to `','` and `UseCRLF` to false and the program changes neither,
so `Write` is given for these settings. -/

/-- Go `utf8.RuneError`. -/
def utf8.RuneError : Nat := 0xFFFD

/-- A UTF-8 continuation byte. -/
def utf8.cont (c : Byte) : Bool := decide (0x80 ≤ c) && decide (c ≤ 0xBF)

/-- Go `utf8.DecodeRuneInString`, the rune only. -/
def utf8.DecodeRuneInString (s : GoString) : Nat :=
  match s with
  | [] => utf8.RuneError
  | s0 :: rest =>
    if s0 < 0x80 then s0
    else if s0 < 0xC2 then utf8.RuneError
    else if s0 < 0xE0 then
      match rest with
      | s1 :: _ => if utf8.cont s1 then (s0 - 0xC0) * 64 + (s1 - 0x80) else utf8.RuneError
      | _ => utf8.RuneError
    else if s0 < 0xF0 then
      match rest with
      | s1 :: s2 :: _ =>
        let lo := if s0 = 0xE0 then 0xA0 else 0x80
        let hi := if s0 = 0xED then 0x9F else 0xBF
        if s1 < lo ∨ hi < s1 then utf8.RuneError
        else if !utf8.cont s2 then utf8.RuneError
        else (s0 - 0xE0) * 4096 + (s1 - 0x80) * 64 + (s2 - 0x80)
      | _ => utf8.RuneError
    else if s0 < 0xF5 then
      match rest with
      | s1 :: s2 :: s3 :: _ =>
        let lo := if s0 = 0xF0 then 0x90 else 0x80
        let hi := if s0 = 0xF4 then 0x8F else 0xBF
        if s1 < lo ∨ hi < s1 then utf8.RuneError
        else if !utf8.cont s2 then utf8.RuneError
        else if !utf8.cont s3 then utf8.RuneError
        else (s0 - 0xF0) * 262144 + (s1 - 0x80) * 4096 + (s2 - 0x80) * 64 + (s3 - 0x80)
      | _ => utf8.RuneError
    else utf8.RuneError

/-- Go `unicode.IsSpace`. -/
def unicode.IsSpace (r : Nat) : Bool :=
  if r ≤ 0xFF then
    decide (r = 0x09 ∨ r = 0x0A ∨ r = 0x0B ∨ r = 0x0C ∨ r = 0x0D ∨ r = 0x20 ∨ r = 0x85 ∨ r = 0xA0)
  else
    decide (r = 0x1680 ∨ (0x2000 ≤ r ∧ r ≤ 0x200A) ∨ r = 0x2028 ∨ r = 0x2029 ∨ r = 0x202F
      ∨ r = 0x205F ∨ r = 0x3000)

/-- A byte that forces a field into quotes: line feed, carriage return, double quote, comma. -/
def csv.special (c : Byte) : Bool := decide (c = 10 ∨ c = 13 ∨ c = 34 ∨ c = 44)

/-- Go `(*csv.Writer).fieldNeedsQuotes`. -/
def csv.fieldNeedsQuotes (field : GoString) : Bool :=
  if field = [] then false
  else if field = [92, 46] then true
  else if field.any csv.special then true
  else unicode.IsSpace (utf8.DecodeRuneInString field)

/-- The Go idiom `if err != nil { return err }` after a write: with an error the outcome
stands, without one the rest runs on the writer. -/
def thenDo (r : bufio.Writer × Option Error) (rest : bufio.Writer → bufio.Writer × Option Error) :
    bufio.Writer × Option Error :=
  match r with
  | (w, some e) => (w, some e)
  | (w, none) => rest w

/-- The loop `for len(field) > 0` of `(*csv.Writer).Write` over a quoted field: `run` holds the
bytes since the last special character, written verbatim when the next one (or the end of the
field) is met; a double quote is doubled, carriage return and line feed are written as is. -/
def csv.writeQuoted (w : bufio.Writer) : GoString → GoString → bufio.Writer × Option Error
  | run, [] => if run = [] then (w, none) else w.WriteString run
  | run, c :: rest =>
    if c = 34 ∨ c = 13 ∨ c = 10 then
      thenDo (w.WriteString run) fun w1 =>
      thenDo (if c = 34 then w1.WriteString [34, 34] else w1.WriteByte c) fun w2 =>
      csv.writeQuoted w2 [] rest
    else csv.writeQuoted w (run ++ [c]) rest

/-- One field of `(*csv.Writer).Write`: bare, or between quotes. -/
def csv.writeField (w : bufio.Writer) (field : GoString) : bufio.Writer × Option Error :=
  if !csv.fieldNeedsQuotes field then w.WriteString field
  else
    thenDo (w.WriteByte 34) fun w1 =>
    thenDo (csv.writeQuoted w1 [] field) fun w2 =>
    w2.WriteByte 34

/-- The loop `for n, field := range record` of `(*csv.Writer).Write`; `n` is the index. -/
def csv.writeFields (w : bufio.Writer) : Nat → List GoString → bufio.Writer × Option Error
  | _, [] => (w, none)
  | n, field :: rest =>
    thenDo (if n > 0 then w.WriteByte 44 else (w, none)) fun w1 =>
    thenDo (csv.writeField w1 field) fun w2 =>
    csv.writeFields w2 (n + 1) rest

/-- Go `(*csv.Writer).Write`: the fields, then the line feed. -/
def csv.Write (w : bufio.Writer) (record : List GoString) : bufio.Writer × Option Error :=
  thenDo (csv.writeFields w 0 record) fun w1 => w1.WriteByte 10

/-- Go `(*csv.Writer).Flush`, which returns nothing. -/
def csv.Flush (w : bufio.Writer) : bufio.Writer := w.Flush.1

/-! ## Package `time`: calendar, formatting and parsing

Days are counted from 0001-01-01 of the proleptic Gregorian calendar; Go counts them from a
year that also is 1 modulo 400, which shifts every count by whole 400-year cycles. Integers are
unbounded. A location is the fixed offset carried by the `Time`. -/

/-- Go `isLeap`. -/
def time.isLeap (year : Int) : Bool :=
  decide (year % 4 = 0) && (decide (year % 100 ≠ 0) || decide (year % 400 = 0))

/-- Go table `daysBefore`: the days of a non-leap year before month `m + 1` starts. -/
def time.daysBefore (m : Int) : Int :=
  if m ≤ 0 then 0 else if m = 1 then 31 else if m = 2 then 59 else if m = 3 then 90
  else if m = 4 then 120 else if m = 5 then 151 else if m = 6 then 181 else if m = 7 then 212
  else if m = 8 then 243 else if m = 9 then 273 else if m = 10 then 304 else if m = 11 then 334
  else 365

/-- Go `daysIn`. -/
def time.daysIn (m year : Int) : Int :=
  if m = 2 ∧ time.isLeap year = true then 29 else time.daysBefore m - time.daysBefore (m - 1)

/-- Go `daysSinceEpoch`: the days before January 1 of `year`. -/
def time.daysSinceEpoch (year : Int) : Int :=
  let y := year - 1
  let n := y / 400
  let y := y - 400 * n
  let d := 146097 * n
  let n := y / 100
  let y := y - 100 * n
  let d := d + 36524 * n
  let n := y / 4
  let y := y - 4 * n
  let d := d + 1461 * n
  d + 365 * y

/-- Go `absDate` up to the point where it returns when `full` is not set: the year of a day
count and the day within that year, counted from 0. -/
def time.absYearDay (days : Int) : Int × Int :=
  let n := days / 146097
  let y := 400 * n
  let d := days - 146097 * n
  let n := d / 36524
  let n := n - n / 4
  let y := y + 100 * n
  let d := d - 36524 * n
  let n := d / 1461
  let y := y + 4 * n
  let d := d - 1461 * n
  let n := d / 365
  let n := n - n / 4
  let y := y + n
  let d := d - 365 * n
  (y + 1, d)

/-- The rest of Go `absDate`: month and day of month from the day within the year. -/
def time.monthDay (leap : Bool) (yday : Int) : Int × Int :=
  if leap = true ∧ yday = 31 + 29 - 1 then (2, 29)
  else
    let day := if leap = true ∧ yday > 31 + 29 - 1 then yday - 1 else yday
    let month := day / 31
    let last := time.daysBefore (month + 1)
    if day ≥ last then (month + 2, day - last + 1)
    else (month + 1, day - time.daysBefore month + 1)

/-- Go `absDate` with `full` set: year, month and day of month of a day count. -/
def time.absDate (days : Int) : Int × Int × Int :=
  match time.absYearDay days with
  | (year, yday) => (year, time.monthDay (time.isLeap year) yday)

/-- The days from 0001-01-01 to the Unix epoch 1970-01-01. -/
def time.unixEpochDays : Int := 719162

/-- Go `time.Date` in the location with the given fixed offset: month, nanoseconds, seconds,
minutes and hours are normalised, overflowing upwards; the day enters the day count linearly. -/
def time.Date (year month day hour min sec nsec offset : Int) : Time :=
  let m := month - 1
  let year := year + m / 12
  let month := m % 12 + 1
  let sec := sec + nsec / 1000000000
  let nsec := nsec % 1000000000
  let min := min + sec / 60
  let sec := sec % 60
  let hour := hour + min / 60
  let min := min % 60
  let day := day + hour / 24
  let hour := hour % 24
  let d := time.daysSinceEpoch year + time.daysBefore (month - 1)
    + (if time.isLeap year = true ∧ month ≥ 3 then 1 else 0) + (day - 1)
  let abs := d * 86400 + hour * 3600 + min * 60 + sec
  { sec := abs - time.unixEpochDays * 86400 - offset, nsec := nsec.toNat, offset := offset }

/-- The seconds from 0001-01-01 00:00:00 to the wall clock reading of `t` in its location. -/
def Time.abs (t : Time) : Int := t.sec + t.offset + time.unixEpochDays * 86400

/-- The decimal digits of a number, as bytes. -/
def time.decimal (u : Nat) : GoString := (Nat.toDigits 10 u).map Char.toNat

/-- Go `appendInt`: a minus sign for a negative number, then the digits of the magnitude with
zeros in front up to `width` digits. -/
def time.appendInt (x : Int) (width : Nat) : GoString :=
  let sign : GoString := if x < 0 then [45] else []
  let u := x.natAbs
  if width = 2 ∧ u < 100 then sign ++ [48 + u / 10, 48 + u % 10]
  else if width = 4 ∧ u < 10000 then
    sign ++ [48 + u / 1000, 48 + u / 100 % 10, 48 + u / 10 % 10, 48 + u % 10]
  else sign ++ List.replicate (width - (time.decimal u).length) 48 ++ time.decimal u

/-- Go integer division by 60, which rounds towards zero. -/
def time.quo60 (x : Int) : Int := if x < 0 then -((-x) / 60) else x / 60

/-- The zone of the layout `Z07:00`: `Z` for offset zero, else sign, hours and minutes. -/
def time.formatZone (offset : Int) : GoString :=
  if offset = 0 then [90]
  else
    let zone := time.quo60 offset
    let sign : GoString := if zone < 0 then [45] else [43]
    let zone := if zone < 0 then -zone else zone
    sign ++ time.appendInt (zone / 60) 2 ++ [58] ++ time.appendInt (zone % 60) 2

/-- Go `Time.Format(time.RFC3339)`, layout `2006-01-02T15:04:05Z07:00`. -/
def Time.Format (t : Time) : GoString :=
  match time.absDate (t.abs / 86400) with
  | (year, month, day) =>
    let s := t.abs % 86400
    time.appendInt year 4 ++ [45] ++ time.appendInt month 2 ++ [45] ++ time.appendInt day 2
      ++ [84] ++ time.appendInt (s / 3600) 2 ++ [58] ++ time.appendInt (s % 3600 / 60) 2
      ++ [58] ++ time.appendInt (s % 60) 2 ++ time.formatZone t.offset

/-- A decimal digit. -/
def time.isDigit (c : Byte) : Bool := decide (48 ≤ c) && decide (c ≤ 57)

/-- The closure `parseUint` of Go `parseRFC3339`: the number written by the digits `s`, when
all are digits and the number lies within `lo..hi`. -/
def time.parseUint (s : GoString) (lo hi : Nat) : Option Nat :=
  if s.all time.isDigit then
    let x := s.foldl (fun x c => x * 10 + (c - 48)) 0
    if x < lo ∨ hi < x then none else some x
  else none

/-- Go `parseNanoseconds` on a fraction `.ddd…` of `n` bytes: at most nine digits count, scaled
to nanoseconds. -/
def time.parseNanoseconds (s : GoString) (n : Nat) : Nat :=
  let n := min n 10
  (((s.take n).drop 1).foldl (fun x c => x * 10 + (c - 48)) 0) * 10 ^ (10 - n)

/-- The zone of Go `parseRFC3339`: `Z`, or sign, two digits of hours, colon, two of minutes. -/
def time.parseZone (s : GoString) : Option Int :=
  match s with
  | [90] => some 0
  | [sg, h1, h2, c, m1, m2] =>
    match time.parseUint [h1, h2] 0 23, time.parseUint [m1, m2] 0 59 with
    | some hr, some mm =>
      if (sg = 45 ∨ sg = 43) ∧ c = 58 then
        let zoneOffset : Int := ((hr * 60 + mm) * 60 : Nat)
        some (if sg = 45 then -zoneOffset else zoneOffset)
      else none
    | _, _ => none
  | _ => none

/-- Go `parseRFC3339`, the strict parser `time.Parse` uses for the layout `time.RFC3339`. -/
def time.parseRFC3339 (s : GoString) : Option Time :=
  match s with
  | y1 :: y2 :: y3 :: y4 :: c1 :: m1 :: m2 :: c2 :: d1 :: d2 :: c3 :: h1 :: h2 :: c4
      :: i1 :: i2 :: c5 :: s1 :: s2 :: rest =>
    match time.parseUint [y1, y2, y3, y4] 0 9999, time.parseUint [m1, m2] 1 12 with
    | some year, some month =>
      match time.parseUint [d1, d2] 1 (time.daysIn month year).toNat,
          time.parseUint [h1, h2] 0 23, time.parseUint [i1, i2] 0 59,
          time.parseUint [s1, s2] 0 59 with
      | some day, some hour, some min, some sec =>
        if c1 = 45 ∧ c2 = 45 ∧ c3 = 84 ∧ c4 = 58 ∧ c5 = 58 then
          let digits := (rest.drop 1).takeWhile time.isDigit
          let frac := rest.head? = some 46 ∧ digits ≠ []
          let nsec := if frac then time.parseNanoseconds rest (1 + digits.length) else 0
          let rest := if frac then rest.drop (1 + digits.length) else rest
          match time.parseZone rest with
          | some zoneOffset => some (time.Date year month day hour min sec nsec zoneOffset)
          | none => none
        else none
      | _, _, _, _ => none
    | _, _ => none
  | _ => none

/-! ## The writer `writeSnapshotsToCSV` -/

/-- The slice `headers` of `writeSnapshotsToCSV`. -/
def headers : List GoString :=
  [ascii "SnapshotIdentifier", ascii "SnapshotARN",
   ascii "DBClusterIdentifier / DBInstanceIdentifier", ascii "SnapshotCreateTime",
   ascii "Status", ascii "Scope"]

/-- The slice `row` built for a snapshot in `writeSnapshotsToCSV`. -/
def row (s : Snapshot) : List GoString :=
  [s.SnapshotIdentifier, s.SnapshotARN, s.ResourceIdentifier, s.SnapshotCreateTime.Format,
   s.Status, s.SnapshotScope]

/-- The loop `for _, s := range snapshots` of `writeSnapshotsToCSV`. -/
def writeRows (w : bufio.Writer) : List Snapshot → bufio.Writer × Option Error
  | [] => (w, none)
  | s :: rest =>
    thenDo (csv.Write w (row s)) fun w1 => writeRows w1 rest

/-- Go `writeSnapshotsToCSV` on the file the name designates: the file afterwards and the
returned error. The deferred calls run on every return after their registration, `w.Flush()`
first, then `file.Close()`, and what they report is dropped. -/
def writeSnapshotsToCSV (d : Disk) (snapshots : List Snapshot) : Disk × Option Error :=
  match os.Create d with
  | (d1, some e) => (d1, some e)
  | (file, none) =>
    let w := bufio.NewWriter file
    let body := thenDo (csv.Write w headers) fun w1 => writeRows w1 snapshots
    ((csv.Flush body.1).wr, body.2)

/-! ## The program `main` -/

/-- The parsed command line. -/
structure Flags where
  identifier : GoString
  days : Int
  profile : GoString

/-- The calls `main` makes to its collaborators, in order. -/
inductive Call where
  | LoadDefaultConfig (region profile : GoString)
  | fetchClusterSnapshots (clusterIdentifier : GoString)
  | fetchInstanceSnapshots (instanceIdentifier : GoString)
  | writeSnapshotsToCSV (filename : GoString)
deriving DecidableEq, Repr

/-- What the program runs in and acts on: the credential resolver, the clock and calendar of
the process, the provider's page outcomes for an identifier, the file `rds_snapshots.csv`,
standard output, and the record of calls made. `startTime days` is the value the expression
`time.Now().AddDate(0, 0, -days)` takes for the flag value `days`: the reading of the clock,
the location of the process with its changes of offset, and the integer arithmetic of the
library are the world's, not the program's. -/
structure World where
  loadConfig : GoString → Option Error
  startTime : Int → Time
  clusterPages : GoString → List (PageResult DBClusterSnapshot)
  instancePages : GoString → List (PageResult DBSnapshot)
  disk : Disk
  stdout : GoString
  calls : List Call

/-- How the process ends: `main` returns, `os.Exit(code)`, or a panic. -/
inductive Exit where
  | returned
  | exited (code : Nat)
  | panicked (e : Error)
deriving DecidableEq, Repr

/-- Go `main`, after `flag.Parse`. -/
def main (f : Flags) (w : World) : Exit × World :=
  if f.identifier = [] then
    (.exited 1, { w with stdout := w.stdout ++ ascii "--identifier is required\n" })
  else
    let region := ascii "us-east-1"
    let w := { w with calls := w.calls ++ [Call.LoadDefaultConfig region f.profile] }
    match w.loadConfig f.profile with
    | some e => (.panicked e, w)
    | none =>
      let startTime := w.startTime f.days
      let w := { w with calls := w.calls ++ [Call.fetchClusterSnapshots f.identifier] }
      match fetchClusterSnapshots (w.clusterPages f.identifier) startTime with
      | (_, some e) => (.panicked e, w)
      | (clusterSnapshots, none) =>
        let w := { w with calls := w.calls ++ [Call.fetchInstanceSnapshots f.identifier] }
        match fetchInstanceSnapshots (w.instancePages f.identifier) startTime with
        | (_, some e) => (.panicked e, w)
        | (instanceSnapshots, none) =>
          let output := ascii "rds_snapshots.csv"
          let w := { w with calls := w.calls ++ [Call.writeSnapshotsToCSV output] }
          match writeSnapshotsToCSV w.disk (clusterSnapshots ++ instanceSnapshots) with
          | (disk, some e) => (.panicked e, { w with disk := disk })
          | (disk, none) =>
            let line := ascii "Snapshot inventory written to " ++ output ++ [10]
            (.returned, { w with disk := disk, stdout := w.stdout ++ line })

/-! ## What the file holds: the text of the records, and reading it back -/

/-- The text `(*csv.Writer).Write` produces for a field: the field itself, or, when it needs
quotes, the field between double quotes with every double quote in it doubled. -/
def csv.encodeField (field : GoString) : GoString :=
  if csv.fieldNeedsQuotes field then
    [34] ++ (field.map fun c => if c = 34 then [34, 34] else [c]).flatten ++ [34]
  else field

/-- The text of the fields of a record from index `n` on: a comma before each field but the
first of the record. -/
def csv.encodeFields : Nat → List GoString → GoString
  | _, [] => []
  | n, field :: rest =>
    (if n > 0 then [44] else []) ++ csv.encodeField field ++ csv.encodeFields (n + 1) rest

/-- The line of a record: its fields, then a line feed. -/
def csv.encodeRecord (record : List GoString) : GoString := csv.encodeFields 0 record ++ [10]

/-- The text of a sequence of records. -/
def csv.encode (rows : List (List GoString)) : GoString := (rows.map csv.encodeRecord).flatten

/-- The bytes handed to a buffered writer so far, in order: those in the file, then those
still in the buffer. -/
def bufio.Writer.stream (b : bufio.Writer) : GoString := b.wr.content.getD [] ++ b.buf

/-- The outcome `r` of an operation on the writer `b` reports no error and has added exactly
`data` to the stream, the device having accepted what was flushed; a file that existed still
exists. -/
def bufio.Writer.Wrote (b : bufio.Writer) (data : GoString) (r : bufio.Writer × Option Error) :
    Prop :=
  r.2 = none ∧ r.1.err = none ∧ r.1.stream = b.stream ++ data
    ∧ r.1.wr.room + b.buf.length + data.length = b.wr.room + r.1.buf.length
    ∧ (b.wr.content.isSome = true → r.1.wr.content.isSome = true)

/-- Where a reader of delimited text stands: at the start of a field, inside a bare field,
inside a quoted field, just after a double quote met inside a quoted field, or just after a
carriage return met outside quotes. -/
inductive csv.Mode where
  | start
  | bare
  | quoted
  | closed
  | cr
deriving DecidableEq, Repr

/-- The state of the reader: the records completed, the fields completed in the current
record, the bytes of the current field, and the mode. -/
structure csv.Reader where
  rows : List (List GoString)
  record : List GoString
  field : GoString
  mode : csv.Mode
deriving DecidableEq, Repr

/-- The reader after a comma that ends a field. -/
def csv.Reader.endField (p : csv.Reader) : csv.Reader :=
  { rows := p.rows, record := p.record ++ [p.field], field := [], mode := .start }

/-- The reader after a line break that ends a record. -/
def csv.Reader.endRecord (p : csv.Reader) : csv.Reader :=
  { rows := p.rows ++ [p.record ++ [p.field]], record := [], field := [], mode := .start }

/-- One byte of delimited text read by the standard quoting rules (RFC 4180, with a record
ending at a line feed or at a carriage return and line feed): a field is bare, and then holds
no double quote, or it is quoted, and then holds every byte up to the closing double quote,
carriage returns and line feeds included, a doubled double quote standing for one. -/
def csv.step (p : csv.Reader) (c : Byte) : Option csv.Reader :=
  match p.mode with
  | .start =>
    if c = 34 then some { p with mode := .quoted }
    else if c = 44 then some p.endField
    else if c = 10 then some p.endRecord
    else if c = 13 then some { p with mode := .cr }
    else some { p with field := p.field ++ [c], mode := .bare }
  | .bare =>
    if c = 34 then none
    else if c = 44 then some p.endField
    else if c = 10 then some p.endRecord
    else if c = 13 then some { p with mode := .cr }
    else some { p with field := p.field ++ [c] }
  | .quoted =>
    if c = 34 then some { p with mode := .closed }
    else some { p with field := p.field ++ [c] }
  | .closed =>
    if c = 34 then some { p with field := p.field ++ [34], mode := .quoted }
    else if c = 44 then some p.endField
    else if c = 10 then some p.endRecord
    else if c = 13 then some { p with mode := .cr }
    else none
  | .cr => if c = 10 then some p.endRecord else none

/-- The reader run over a text. -/
def csv.run (p : csv.Reader) : GoString → Option csv.Reader
  | [] => some p
  | c :: rest =>
    match csv.step p c with
    | some q => csv.run q rest
    | none => none

/-- The records of a delimited text, or nothing when the text is malformed. A last line
without line break counts as a record. -/
def csv.parse (text : GoString) : Option (List (List GoString)) :=
  match csv.run { rows := [], record := [], field := [], mode := .start } text with
  | none => none
  | some p =>
    match p.mode with
    | .quoted => none
    | .cr => none
    | .start => if p.record = [] then some p.rows else some (p.endRecord).rows
    | _ => some (p.endRecord).rows

/-- The times `Format` renders in a form `parseRFC3339` reads back: the year of the wall clock
reading lies within 0..9999, and the offset is a whole number of minutes below 24 hours. -/
def Time.renderable (t : Time) : Prop :=
  0 ≤ (time.absDate (t.abs / 86400)).1 ∧ (time.absDate (t.abs / 86400)).1 ≤ 9999
    ∧ t.offset % 60 = 0 ∧ -86400 < t.offset ∧ t.offset < 86400

instance (t : Time) : Decidable t.renderable := by
  unfold Time.renderable
  exact inferInstance

/-- The time truncated to whole seconds. -/
def Time.truncSeconds (t : Time) : Time := { t with nsec := 0 }

/-- The text is an RFC 3339 date-time with UTC offset for the time `t`, to the second: the
strict parser reads it, and reads the instant of `t` truncated to whole seconds at the offset
of `t` from UTC. -/
def Time.isRFC3339 (t : Time) (text : GoString) : Prop :=
  time.parseRFC3339 text = some t.truncSeconds

instance (t : Time) (text : GoString) : Decidable (t.isRFC3339 text) := by
  unfold Time.isRFC3339
  exact inferInstance

/-- The snapshot a row of six fields stands for, its fourth field read by `parseRFC3339`;
nothing for a row of another shape or with a timestamp that does not parse. -/
def readRow (r : List GoString) : Option Snapshot :=
  match r with
  | [identifier, arn, resource, created, status, scope] =>
    match time.parseRFC3339 created with
    | some t => some {
        SnapshotIdentifier := identifier
        SnapshotARN := arn
        ResourceIdentifier := resource
        SnapshotCreateTime := t
        Status := status
        SnapshotScope := scope }
    | none => none
  | _ => none

/-- The snapshots the rows after the header row of a delimited text stand for. -/
def readSnapshots (text : GoString) : Option (List (Option Snapshot)) :=
  match csv.parse text with
  | some (_ :: rows) => some (rows.map readRow)
  | _ => none

/-- A device with room for a hundred thousand bytes, holding no file yet. -/
def scenarioDisk : Disk :=
  { content := none, room := 100000, createErr := none, writeErr := ⟨"no space left on device"⟩,
    failed := false }

/-- A snapshot of the scenarios whose strings hold a comma, double quotes, a leading space and
a carriage return with line feed, created at 2024-11-04T10:40:00.5+05:30. -/
def scenarioSnapshot : Snapshot where
  SnapshotIdentifier := ascii "a,b"
  SnapshotARN := ascii "arn \"x\""
  ResourceIdentifier := ascii " db1"
  SnapshotCreateTime := { sec := 1730697000, nsec := 500000000, offset := 19800 }
  Status := ascii "line\r\nbreak"
  SnapshotScope := ascii "CLUSTER"

/-- A snapshot taken at the Unix epoch in a location 30 seconds east of UTC. -/
def secondsZoneSnapshot : Snapshot :=
  { scenarioSnapshot with SnapshotCreateTime := { sec := 0, nsec := 0, offset := 30 } }

/-- A snapshot taken at 1930-01-01T00:00:00Z in a location 19 minutes and 32 seconds east of
UTC, the local mean time of Amsterdam then in force. -/
def amsterdamSnapshot : Snapshot :=
  { scenarioSnapshot with SnapshotCreateTime := { sec := -1262304000, nsec := 0, offset := 1172 } }

/-- A snapshot with plain strings taken at 2024-11-04T10:40:00Z. -/
def plainSnapshot : Snapshot where
  SnapshotIdentifier := ascii "snap-1"
  SnapshotARN := ascii "arn:aws:rds:us-east-1:1:snapshot:snap-1"
  ResourceIdentifier := ascii "db1"
  SnapshotCreateTime := scenarioNow
  Status := ascii "available"
  SnapshotScope := ascii "INSTANCE"

/-- A snapshot taken at 10000-01-01T00:00:00Z. -/
def farFutureSnapshot : Snapshot :=
  { scenarioSnapshot with SnapshotCreateTime := { sec := 253402300800, nsec := 0, offset := 0 } }

/-- An instance record of the scenarios, created the given number of days before
`scenarioNow`. -/
def scenarioInstanceRecord (name : String) (daysAgo : Int) : DBSnapshot where
  DBSnapshotIdentifier := some (ascii name)
  DBSnapshotArn := some (ascii "arn:aws:rds:us-east-1:1:snapshot:" ++ ascii name)
  DBInstanceIdentifier := some (ascii "db1")
  SnapshotCreateTime := some { scenarioNow with sec := scenarioNow.sec - daysAgo * 86400 }
  Status := some (ascii "creating")

/-- A world of the scenarios: credentials resolve, the clock reads `scenarioNow` in UTC, where
going back a day is going back 86400 seconds (for day counts below 10^14, beyond which the
arithmetic of the library wraps), so that the threshold for `--days 7` is `scenarioThreshold`;
the cluster listing yields a record created 3 days ago and one created 10 days ago, the
instance listing yields the given outcomes, and the device is the given one. -/
def scenarioWorld (instancePages : List (PageResult DBSnapshot)) (disk : Disk) : World where
  loadConfig := fun _ => none
  startTime := fun days => { scenarioNow with sec := scenarioNow.sec - days * 86400 }
  clusterPages := fun _ => [PageResult.page [scenarioRecord "recent" 3, scenarioRecord "old" 10]]
  instancePages := fun _ => instancePages
  disk := disk
  stdout := []
  calls := []

/-- The world of the scenario with rows of both scopes: the instance listing yields, on two
pages, a record created 30 days ago, one created 1 day ago and one created 2 days ago. -/
def scenarioBothWorld : World :=
  scenarioWorld
    [PageResult.page [scenarioInstanceRecord "stale" 30, scenarioInstanceRecord "i1" 1],
     PageResult.page [scenarioInstanceRecord "i2" 2]] scenarioDisk

/-- The command line `--identifier db1 --days 7`. -/
def scenarioFlags : Flags := { identifier := ascii "db1", days := 7, profile := ascii "default" }

/-! ## Theorems: fetchers -/

theorem clusterPageLoop_eq (t : Time) (recs : List DBClusterSnapshot) (acc : List Snapshot) :
    clusterPageLoop t recs acc = acc ++ recs.filterMap (acceptCluster t) := by
  induction recs generalizing acc with
  | nil => simp [clusterPageLoop]
  | cons s rest ih =>
    cases hc : s.SnapshotCreateTime with
    | none => simp [clusterPageLoop, acceptCluster, hc, ih, List.filterMap_cons]
    | some c =>
      by_cases ha : c.After t = true
      · simp [clusterPageLoop, acceptCluster, hc, ih, List.filterMap_cons, ha]
      · simp [clusterPageLoop, acceptCluster, hc, ih, List.filterMap_cons, ha]

theorem instancePageLoop_eq (t : Time) (recs : List DBSnapshot) (acc : List Snapshot) :
    instancePageLoop t recs acc = acc ++ recs.filterMap (acceptInstance t) := by
  induction recs generalizing acc with
  | nil => simp [instancePageLoop]
  | cons s rest ih =>
    cases hc : s.SnapshotCreateTime with
    | none => simp [instancePageLoop, acceptInstance, hc, ih, List.filterMap_cons]
    | some c =>
      by_cases ha : c.After t = true
      · simp [instancePageLoop, acceptInstance, hc, ih, List.filterMap_cons, ha]
      · simp [instancePageLoop, acceptInstance, hc, ih, List.filterMap_cons, ha]

theorem clusterLoop_pages (t : Time) (pages : List (List DBClusterSnapshot))
    (acc : List Snapshot) :
    clusterLoop t (pages.map PageResult.page) acc
      = (acc ++ pages.flatten.filterMap (acceptCluster t), none) := by
  induction pages generalizing acc with
  | nil => simp [clusterLoop]
  | cons p rest ih =>
    simp [clusterLoop, ih, clusterPageLoop_eq, List.filterMap_append]

theorem instanceLoop_pages (t : Time) (pages : List (List DBSnapshot))
    (acc : List Snapshot) :
    instanceLoop t (pages.map PageResult.page) acc
      = (acc ++ pages.flatten.filterMap (acceptInstance t), none) := by
  induction pages generalizing acc with
  | nil => simp [instanceLoop]
  | cons p rest ih =>
    simp [instanceLoop, ih, instancePageLoop_eq, List.filterMap_append]

theorem clusterLoop_eq (t : Time) (pages : List (PageResult DBClusterSnapshot))
    (acc : List Snapshot) :
    clusterLoop t pages acc
      = match firstError pages with
        | some e => ([], some e)
        | none => (acc ++ (records pages).filterMap (acceptCluster t), none) := by
  induction pages generalizing acc with
  | nil => simp [clusterLoop, firstError, records]
  | cons p rest ih =>
    cases p with
    | err e => simp [clusterLoop, firstError]
    | page rs =>
      simp only [clusterLoop, firstError, records, ih, clusterPageLoop_eq]
      cases firstError rest <;> simp [List.filterMap_append]

theorem instanceLoop_eq (t : Time) (pages : List (PageResult DBSnapshot))
    (acc : List Snapshot) :
    instanceLoop t pages acc
      = match firstError pages with
        | some e => ([], some e)
        | none => (acc ++ (records pages).filterMap (acceptInstance t), none) := by
  induction pages generalizing acc with
  | nil => simp [instanceLoop, firstError, records]
  | cons p rest ih =>
    cases p with
    | err e => simp [instanceLoop, firstError]
    | page rs =>
      simp only [instanceLoop, firstError, records, ih, instancePageLoop_eq]
      cases firstError rest <;> simp [List.filterMap_append]

theorem firstError_isSome {α : Type} (pages : List (PageResult α)) :
    (firstError pages).isSome = pages.any PageResult.failed := by
  induction pages with
  | nil => rfl
  | cons p rest ih => cases p <;> simp [firstError, PageResult.failed, ih]

theorem firstError_append_err {α : Type} (before : List (List α)) (e : Error)
    (after : List (PageResult α)) :
    firstError (before.map PageResult.page ++ PageResult.err e :: after) = some e := by
  induction before with
  | nil => rfl
  | cons p rest ih => simpa [firstError] using ih

theorem firstError_discard {α : Type} (p : α → Bool) (pages : List (PageResult α)) :
    firstError (pages.map (PageResult.discard p)) = firstError pages := by
  induction pages with
  | nil => rfl
  | cons q rest ih => cases q <;> simp [firstError, PageResult.discard, ih]

theorem records_discard {α : Type} (p : α → Bool) (pages : List (PageResult α)) :
    records (pages.map (PageResult.discard p)) = (records pages).filter fun r => !p r := by
  induction pages with
  | nil => rfl
  | cons q rest ih => cases q <;> simp [records, PageResult.discard, ih]

theorem firstError_map {α β : Type} (f : α → β) (pages : List (PageResult α)) :
    firstError (pages.map (PageResult.map f)) = firstError pages := by
  induction pages with
  | nil => rfl
  | cons q rest ih => cases q <;> simp [firstError, PageResult.map, ih]

theorem records_map {α β : Type} (f : α → β) (pages : List (PageResult α)) :
    records (pages.map (PageResult.map f)) = (records pages).map f := by
  induction pages with
  | nil => rfl
  | cons q rest ih => cases q <;> simp [records, PageResult.map, ih]

theorem stale_iff (t : Time) (c : Time) : stale t (some c) = true ↔ c.atOrBefore t := by
  simp only [stale, Time.After, Time.atOrBefore, Bool.not_eq_true', Bool.or_eq_false_iff,
    Bool.and_eq_false_iff, decide_eq_false_iff_not]
  omega

theorem acceptCluster_stale (t : Time) (r : DBClusterSnapshot)
    (h : stale t r.SnapshotCreateTime = true) : acceptCluster t r = none := by
  unfold acceptCluster
  cases hc : r.SnapshotCreateTime with
  | none => rfl
  | some c => simp [stale, hc] at h; simp [h]

theorem acceptInstance_stale (t : Time) (r : DBSnapshot)
    (h : stale t r.SnapshotCreateTime = true) : acceptInstance t r = none := by
  unfold acceptInstance
  cases hc : r.SnapshotCreateTime with
  | none => rfl
  | some c => simp [stale, hc] at h; simp [h]

theorem acceptCluster_some (t : Time) (r : DBClusterSnapshot) (s : Snapshot)
    (h : acceptCluster t r = some s) :
    r.SnapshotCreateTime = some s.SnapshotCreateTime ∧ s.SnapshotCreateTime.After t = true
      ∧ s.SnapshotScope = ascii "CLUSTER" := by
  unfold acceptCluster at h
  cases hc : r.SnapshotCreateTime with
  | none => simp [hc] at h
  | some c =>
    by_cases ha : c.After t = true
    · simp [hc, ha] at h; subst h; exact ⟨rfl, ha, rfl⟩
    · simp [hc, ha] at h

theorem acceptInstance_some (t : Time) (r : DBSnapshot) (s : Snapshot)
    (h : acceptInstance t r = some s) :
    r.SnapshotCreateTime = some s.SnapshotCreateTime ∧ s.SnapshotCreateTime.After t = true
      ∧ s.SnapshotScope = ascii "INSTANCE" := by
  unfold acceptInstance at h
  cases hc : r.SnapshotCreateTime with
  | none => simp [hc] at h
  | some c =>
    by_cases ha : c.After t = true
    · simp [hc, ha] at h; subst h; exact ⟨rfl, ha, rfl⟩
    · simp [hc, ha] at h

theorem filterMap_discard_stale {α : Type} (f : α → Option Snapshot) (p : α → Bool)
    (h : ∀ r, p r = true → f r = none) (l : List α) :
    (l.filter fun r => !p r).filterMap f = l.filterMap f := by
  induction l with
  | nil => rfl
  | cons r rest ih =>
    by_cases hp : p r = true
    · simp [List.filter_cons, hp, List.filterMap_cons, h r hp, ih]
    · simp [List.filter_cons, hp, List.filterMap_cons, ih]

theorem acceptInstance_sameAsCluster (t : Time) (c : DBClusterSnapshot) :
    acceptInstance t (sameAsCluster c)
      = (acceptCluster t c).map fun s => s.withScope (ascii "INSTANCE") := by
  unfold acceptInstance acceptCluster sameAsCluster
  cases c.SnapshotCreateTime with
  | none => rfl
  | some x => by_cases ha : x.After t = true <;> simp [ha, Snapshot.withScope]

/-! ## Claims about the fetchers -/

/-- C1: on pages all retrieved without error, `fetchClusterSnapshots` returns, with no error,
exactly the records whose creation time is present and strictly later than the threshold, each
mapped field for field with scope `CLUSTER`, in page order then order within the page; and of
one record created 3 days ago and one created 10 days ago, with a threshold of 7 days, only
the first is returned. -/
theorem C1_fetchClusterSnapshots_exact (pages : List (List DBClusterSnapshot))
    (startTime : Time) :
    fetchClusterSnapshots (pages.map PageResult.page) startTime
        = (pages.flatten.filterMap (acceptCluster startTime), none)
      ∧ fetchClusterSnapshots
          [PageResult.page [scenarioRecord "recent" 3, scenarioRecord "old" 10]]
          scenarioThreshold
        = ([{ SnapshotIdentifier := ascii "recent"
              SnapshotARN := ascii "arn:aws:rds:us-east-1:1:cluster-snapshot:recent"
              ResourceIdentifier := ascii "db1"
              SnapshotCreateTime := { scenarioNow with sec := scenarioNow.sec - 3 * 86400 }
              Status := ascii "available"
              SnapshotScope := ascii "CLUSTER" }], none) := by
  refine ⟨?_, by decide⟩
  simpa [fetchClusterSnapshots] using clusterLoop_pages startTime pages []

/-- C2: every snapshot either fetcher returns has a creation time strictly after the threshold,
and comes from a retrieved record carrying that creation time; removing from the pages every
record whose creation time is missing, or at the threshold or before it, changes nothing in
what is returned; a creation time equal to the threshold counts as excluded. -/
theorem C2_threshold_strict (startTime : Time) :
    (∀ pages, ∀ s ∈ (fetchClusterSnapshots pages startTime).1,
        s.SnapshotCreateTime.After startTime = true ∧ ¬ s.SnapshotCreateTime.atOrBefore startTime
          ∧ ∃ r ∈ records pages, r.SnapshotCreateTime = some s.SnapshotCreateTime
              ∧ acceptCluster startTime r = some s)
      ∧ (∀ pages, ∀ s ∈ (fetchInstanceSnapshots pages startTime).1,
        s.SnapshotCreateTime.After startTime = true ∧ ¬ s.SnapshotCreateTime.atOrBefore startTime
          ∧ ∃ r ∈ records pages, r.SnapshotCreateTime = some s.SnapshotCreateTime
              ∧ acceptInstance startTime r = some s)
      ∧ (∀ pages, fetchClusterSnapshots
            (pages.map (PageResult.discard fun r => stale startTime r.SnapshotCreateTime))
            startTime = fetchClusterSnapshots pages startTime)
      ∧ (∀ pages, fetchInstanceSnapshots
            (pages.map (PageResult.discard fun r => stale startTime r.SnapshotCreateTime))
            startTime = fetchInstanceSnapshots pages startTime)
      ∧ stale startTime none = true
      ∧ stale startTime (some startTime) = true
      ∧ (∀ c, stale startTime (some c) = true ↔ c.atOrBefore startTime) := by
  refine ⟨?_, ?_, ?_, ?_, rfl, ?_, stale_iff startTime⟩
  · intro pages s hs
    simp only [fetchClusterSnapshots, clusterLoop_eq] at hs
    cases he : firstError pages with
    | some e => simp [he] at hs
    | none =>
      simp only [he, List.nil_append, List.mem_filterMap] at hs
      obtain ⟨r, hr, hrs⟩ := hs
      obtain ⟨h1, h2, _⟩ := acceptCluster_some startTime r s hrs
      refine ⟨h2, ?_, r, hr, h1, hrs⟩
      rw [← stale_iff]; simp [stale, h2]
  · intro pages s hs
    simp only [fetchInstanceSnapshots, instanceLoop_eq] at hs
    cases he : firstError pages with
    | some e => simp [he] at hs
    | none =>
      simp only [he, List.nil_append, List.mem_filterMap] at hs
      obtain ⟨r, hr, hrs⟩ := hs
      obtain ⟨h1, h2, _⟩ := acceptInstance_some startTime r s hrs
      refine ⟨h2, ?_, r, hr, h1, hrs⟩
      rw [← stale_iff]; simp [stale, h2]
  · intro pages
    simp only [fetchClusterSnapshots, clusterLoop_eq, firstError_discard, records_discard]
    rw [filterMap_discard_stale _ _ (fun r h => acceptCluster_stale startTime r h)]
  · intro pages
    simp only [fetchInstanceSnapshots, instanceLoop_eq, firstError_discard, records_discard]
    rw [filterMap_discard_stale _ _ (fun r h => acceptInstance_stale startTime r h)]
  · rw [stale_iff]; simp [Time.atOrBefore]

/-- C3: when the retrieval of some page fails, each fetcher returns the error of the first
failing page together with no records, whatever the earlier pages held; and each returns an
error exactly when some page retrieval fails. -/
theorem C3_fetch_error_no_records (startTime : Time) :
    (∀ (before : List (List DBClusterSnapshot)) (e : Error) after,
        fetchClusterSnapshots (before.map PageResult.page ++ PageResult.err e :: after) startTime
          = ([], some e))
      ∧ (∀ (before : List (List DBSnapshot)) (e : Error) after,
        fetchInstanceSnapshots (before.map PageResult.page ++ PageResult.err e :: after) startTime
          = ([], some e))
      ∧ (∀ pages, (fetchClusterSnapshots pages startTime).2.isSome
          = pages.any PageResult.failed)
      ∧ (∀ pages, (fetchInstanceSnapshots pages startTime).2.isSome
          = pages.any PageResult.failed) := by
  refine ⟨?_, ?_, ?_, ?_⟩
  · intro before e after
    simp [fetchClusterSnapshots, clusterLoop_eq, firstError_append_err]
  · intro before e after
    simp [fetchInstanceSnapshots, instanceLoop_eq, firstError_append_err]
  · intro pages
    rw [← firstError_isSome]
    simp only [fetchClusterSnapshots, clusterLoop_eq]
    cases firstError pages <;> rfl
  · intro pages
    rw [← firstError_isSome]
    simp only [fetchInstanceSnapshots, instanceLoop_eq]
    cases firstError pages <;> rfl

/-- C10: on instance records carrying the same identifier, ARN, owning-resource identifier,
creation time and status as the cluster records, `fetchInstanceSnapshots` returns the same
error, or the same records in the same order with the scope `INSTANCE` in place of `CLUSTER`;
every instance record is such a copy of a cluster record; and the scope of every returned
record is the constant of its fetcher. -/
theorem C10_instance_mirrors_cluster (startTime : Time) :
    (∀ pages : List (PageResult DBClusterSnapshot),
        fetchInstanceSnapshots (pages.map (PageResult.map sameAsCluster)) startTime
          = ((fetchClusterSnapshots pages startTime).1.map
                fun s => s.withScope (ascii "INSTANCE"),
             (fetchClusterSnapshots pages startTime).2))
      ∧ (∀ i : DBSnapshot, ∃ c : DBClusterSnapshot, sameAsCluster c = i)
      ∧ (∀ pages, ∀ s ∈ (fetchClusterSnapshots pages startTime).1,
          s.SnapshotScope = ascii "CLUSTER")
      ∧ (∀ pages, ∀ s ∈ (fetchInstanceSnapshots pages startTime).1,
          s.SnapshotScope = ascii "INSTANCE") := by
  refine ⟨?_, ?_, ?_, ?_⟩
  · intro pages
    simp only [fetchInstanceSnapshots, fetchClusterSnapshots, instanceLoop_eq, clusterLoop_eq,
      firstError_map, records_map]
    cases firstError pages with
    | some e => rfl
    | none =>
      simp only [List.nil_append, Prod.mk.injEq, and_true]
      rw [List.filterMap_map, List.map_filterMap]
      congr 1
      funext c
      simp [acceptInstance_sameAsCluster, Option.map]
  · intro i
    exact ⟨⟨i.DBSnapshotIdentifier, i.DBSnapshotArn, i.DBInstanceIdentifier,
      i.SnapshotCreateTime, i.Status⟩, rfl⟩
  · intro pages s hs
    simp only [fetchClusterSnapshots, clusterLoop_eq] at hs
    cases he : firstError pages with
    | some e => simp [he] at hs
    | none =>
      simp only [he, List.nil_append, List.mem_filterMap] at hs
      obtain ⟨r, _, hrs⟩ := hs
      exact (acceptCluster_some startTime r s hrs).2.2
  · intro pages s hs
    simp only [fetchInstanceSnapshots, instanceLoop_eq] at hs
    cases he : firstError pages with
    | some e => simp [he] at hs
    | none =>
      simp only [he, List.nil_append, List.mem_filterMap] at hs
      obtain ⟨r, _, hrs⟩ := hs
      exact (acceptInstance_some startTime r s hrs).2.2

/-! ## Buffered and delimited writing: the text that reaches the file -/

theorem Disk.Write_fits (d : Disk) (b : GoString) (h : b.length ≤ d.room) :
    d.Write b = (b.length,
      { d with content := some (d.content.getD [] ++ b), room := d.room - b.length }, none) := by
  simp [Disk.Write, h]

theorem bufio.Writer.Flush_fits (b : bufio.Writer) (he : b.err = none)
    (h : b.buf.length ≤ b.wr.room) :
    b.Flush.2 = none ∧ b.Flush.1.err = none ∧ b.Flush.1.buf = []
      ∧ b.Flush.1.wr.content.getD [] = b.stream
      ∧ b.Flush.1.wr.room + b.buf.length = b.wr.room
      ∧ (b.wr.content.isSome = true → b.Flush.1.wr.content.isSome = true) := by
  unfold bufio.Writer.Flush
  simp only [he]
  by_cases h0 : b.buf.length = 0
  · have : b.buf = [] := List.length_eq_zero.mp h0
    simp [h0, he, this, bufio.Writer.stream]
  · simp only [h0, if_false, Disk.Write_fits _ _ h]
    simp [bufio.Writer.stream]
    omega

theorem bufio.Writer.WriteByte_wrote (b : bufio.Writer) (c : Byte) (he : b.err = none)
    (h : b.buf.length + 1 ≤ b.wr.room) : b.Wrote [c] (b.WriteByte c) := by
  unfold bufio.Writer.WriteByte
  simp only [he]
  by_cases ha : b.Available ≤ 0
  · obtain ⟨h1, h2, h3, h4, h5, h6⟩ := b.Flush_fits he (by omega)
    simp only [ha, if_true]
    rcases hf : b.Flush with ⟨b1, e⟩
    rw [hf] at h1 h2 h3 h4 h5 h6
    simp only at h1 h2 h3 h4 h5 h6
    subst h1
    simp only [bufio.Writer.Wrote, bufio.Writer.stream, h2, h3, h4, List.nil_append,
      List.length_singleton, List.length_nil, true_and]
    exact ⟨by omega, h6⟩
  · simp only [ha, if_false]
    simp [bufio.Writer.Wrote, bufio.Writer.stream, he]
    omega

theorem bufio.Writer.writeStringLoop_exit (fuel : Nat) (b : bufio.Writer) (s : GoString)
    (h : ¬ (s.length > b.Available ∧ b.err = none)) :
    bufio.Writer.writeStringLoop fuel b s = (b, s) := by
  cases fuel with
  | zero => rfl
  | succ n => simp only [bufio.Writer.writeStringLoop, h, if_false]

theorem bufio.Writer.writeStringLoop_direct (fuel : Nat) (b : bufio.Writer) (s : GoString)
    (he : b.err = none) (hb : b.buf = []) (hs : s.length > b.Available)
    (h : s.length ≤ b.wr.room) :
    bufio.Writer.writeStringLoop (fuel + 1) b s
      = ({ b with wr := { b.wr with content := some (b.wr.content.getD [] ++ s),
                                    room := b.wr.room - s.length } }, []) := by
  simp only [bufio.Writer.writeStringLoop, hs, he, hb, List.length_nil, and_self, if_true,
    Disk.Write_fits _ _ h, List.drop_length]
  rw [bufio.Writer.writeStringLoop_exit]
  simp

theorem bufio.Writer.writeStringLoop_fill (fuel : Nat) (b : bufio.Writer) (s : GoString)
    (he : b.err = none) (hb : b.buf.length ≠ 0) (hs : s.length > b.Available) :
    bufio.Writer.writeStringLoop (fuel + 1) b s
      = bufio.Writer.writeStringLoop fuel
          ({ b with buf := b.buf ++ s.take b.Available } : bufio.Writer).Flush.1
          (s.drop b.Available) := by
  have hn : min b.Available s.length = b.Available := by omega
  simp only [bufio.Writer.writeStringLoop, hs, he, hb, and_self, if_true, if_false, hn]

theorem bufio.Writer.WriteString_wrote (b : bufio.Writer) (s : GoString) (he : b.err = none)
    (h : b.buf.length + s.length ≤ b.wr.room) : b.Wrote s (b.WriteString s) := by
  unfold bufio.Writer.WriteString
  by_cases hs : s.length > b.Available
  · by_cases hb : b.buf = []
    · rw [bufio.Writer.writeStringLoop_direct _ b s he hb hs (by omega)]
      simp only [he, bufio.Writer.Wrote, bufio.Writer.stream, hb, List.append_nil,
        List.length_nil, true_and, Option.getD_some, Option.isSome_some, implies_true,
        and_true, Nat.add_zero, Nat.zero_add]
      omega
    · have hb0 : b.buf.length ≠ 0 := fun h0 => hb (List.length_eq_zero.mp h0)
      have hfit : ({ b with buf := b.buf ++ s.take b.Available } : bufio.Writer).buf.length
          ≤ ({ b with buf := b.buf ++ s.take b.Available } : bufio.Writer).wr.room := by
        simp [List.length_take]; omega
      obtain ⟨_, h2, h3, h4, h5, h6⟩ :=
        bufio.Writer.Flush_fits { b with buf := b.buf ++ s.take b.Available } he hfit
      rw [bufio.Writer.writeStringLoop_fill _ b s he hb0 hs]
      generalize ({ b with buf := b.buf ++ s.take b.Available } : bufio.Writer).Flush.1 = b2
        at h2 h3 h4 h5 h6 ⊢
      simp only [bufio.Writer.stream, List.length_append, List.length_take] at h4 h5 h6
      have hmin : min b.Available s.length = b.Available := by omega
      rw [hmin] at h5
      by_cases hs2 : (s.drop b.Available).length > b2.Available
      · have hfuel : s.length + 1 = s.length + 1 := rfl
        rw [bufio.Writer.writeStringLoop_direct _ b2 _ h2 h3 hs2
          (by simp only [List.length_drop] at hs2 ⊢; omega)]
        simp only [h2, bufio.Writer.Wrote, bufio.Writer.stream, h3, h4, List.append_nil,
          List.length_nil, true_and, Option.getD_some, List.append_assoc,
          List.take_append_drop, List.length_drop, Option.isSome_some, implies_true, and_true]
        omega
      · rw [bufio.Writer.writeStringLoop_exit _ b2 _ (by simp only [not_and]; intro h'; omega)]
        simp only [h2, bufio.Writer.Wrote, bufio.Writer.stream, h3, h4, List.nil_append,
          true_and, List.append_assoc, List.take_append_drop, List.length_drop]
        exact ⟨by omega, h6⟩
  · rw [bufio.Writer.writeStringLoop_exit _ b s (by simp only [not_and]; intro h'; omega)]
    simp only [he, bufio.Writer.Wrote, bufio.Writer.stream, List.append_assoc,
      List.length_append, true_and, imp_self, and_true]
    omega

theorem bufio.Writer.Wrote.nothing (b : bufio.Writer) (he : b.err = none) :
    b.Wrote [] (b, none) := by
  simp [bufio.Writer.Wrote, he]

theorem bufio.Writer.Wrote.fits {b : bufio.Writer} {d : GoString}
    {r : bufio.Writer × Option Error} (h : b.Wrote d r) (k : Nat)
    (hk : b.buf.length + (d.length + k) ≤ b.wr.room) :
    r.1.err = none ∧ r.1.buf.length + k ≤ r.1.wr.room := by
  obtain ⟨_, h2, _, h4, _⟩ := h
  exact ⟨h2, by omega⟩

theorem thenDo_wrote {b : bufio.Writer} {r : bufio.Writer × Option Error}
    {f : bufio.Writer → bufio.Writer × Option Error} {d1 d2 : GoString}
    (h1 : b.Wrote d1 r) (h2 : r.1.Wrote d2 (f r.1)) : b.Wrote (d1 ++ d2) (thenDo r f) := by
  obtain ⟨w, e⟩ := r
  obtain ⟨a1, a2, a3, a4, a5⟩ := h1
  obtain ⟨b1, b2, b3, b4, b5⟩ := h2
  simp only at a1 a2 a3 a4 a5 b1 b2 b3 b4 b5
  subst a1
  simp only [thenDo]
  refine ⟨b1, b2, ?_, ?_, fun hx => b5 (a5 hx)⟩
  · rw [b3, a3, List.append_assoc]
  · simp only [List.length_append]; omega

/-- The bytes written for the content of a quoted field. -/
theorem csv.writeQuoted_wrote (field : GoString) (w : bufio.Writer) (run : GoString)
    (he : w.err = none)
    (h : w.buf.length
      + (run.length + (field.map fun c => if c = 34 then [34, 34] else [c]).flatten.length)
      ≤ w.wr.room) :
    w.Wrote (run ++ (field.map fun c => if c = 34 then [34, 34] else [c]).flatten)
      (csv.writeQuoted w run field) := by
  induction field generalizing w run with
  | nil =>
    simp only [csv.writeQuoted, List.map_nil, List.flatten_nil, List.append_nil]
    by_cases hr : run = []
    · simp only [hr, if_true]; exact bufio.Writer.Wrote.nothing w he
    · simp only [hr, if_false]
      exact w.WriteString_wrote run he (by simpa using h)
  | cons c rest ih =>
    simp only [List.map_cons, List.flatten_cons, List.length_append] at h ⊢
    by_cases hc : c = 34 ∨ c = 13 ∨ c = 10
    · simp only [csv.writeQuoted, hc, if_true]
      have h1 := w.WriteString_wrote run he (by omega)
      refine thenDo_wrote h1 ?_
      obtain ⟨e1, f1⟩ := h1.fits _ h
      by_cases hq : c = 34
      · simp only [hq, if_true] at f1 ⊢
        have h2 := (w.WriteString run).1.WriteString_wrote [34, 34] e1
          (by simp only [List.length_cons, List.length_nil] at f1 ⊢; omega)
        refine thenDo_wrote h2 ?_
        obtain ⟨e2, f2⟩ := h2.fits _ f1
        simpa using ih _ [] e2 (by simpa using f2)
      · simp only [hq, if_false] at f1 ⊢
        have h2 := (w.WriteString run).1.WriteByte_wrote c e1
          (by simp only [List.length_cons, List.length_nil] at f1 ⊢; omega)
        refine thenDo_wrote h2 ?_
        obtain ⟨e2, f2⟩ := h2.fits _ f1
        simpa using ih _ [] e2 (by simpa using f2)
    · have hq : c ≠ 34 := fun hq => hc (Or.inl hq)
      rw [csv.writeQuoted, if_neg hc]
      simp only [hq, if_false] at h ⊢
      have := ih w (run ++ [c]) he (by
        simp only [List.length_append, List.length_singleton] at h ⊢; omega)
      simpa using this

theorem csv.writeField_wrote (field : GoString) (w : bufio.Writer) (he : w.err = none)
    (h : w.buf.length + (csv.encodeField field).length ≤ w.wr.room) :
    w.Wrote (csv.encodeField field) (csv.writeField w field) := by
  unfold csv.writeField
  unfold csv.encodeField at h ⊢
  by_cases hq : csv.fieldNeedsQuotes field = true
  · simp only [hq, Bool.not_true, if_true, List.length_append, List.length_singleton,
      Bool.false_eq_true, if_false] at h ⊢
    have h1 := w.WriteByte_wrote 34 he (by omega)
    rw [List.append_assoc]
    refine thenDo_wrote h1 ?_
    obtain ⟨e1, f1⟩ := h1.fits
      ((field.map fun c => if c = 34 then [34, 34] else [c]).flatten.length + 1)
      (by simp only [List.length_singleton]; omega)
    have h2 := csv.writeQuoted_wrote field (w.WriteByte 34).1 [] e1
      (by simp only [List.length_nil]; omega)
    simp only [List.nil_append] at h2
    refine thenDo_wrote h2 ?_
    obtain ⟨e2, f2⟩ := h2.fits 1 (by omega)
    exact bufio.Writer.WriteByte_wrote _ 34 e2 f2
  · simp only [hq, Bool.not_false, if_true, if_false] at h ⊢
    exact w.WriteString_wrote field he h

theorem csv.writeFields_wrote (record : List GoString) (n : Nat) (w : bufio.Writer)
    (he : w.err = none)
    (h : w.buf.length + (csv.encodeFields n record).length ≤ w.wr.room) :
    w.Wrote (csv.encodeFields n record) (csv.writeFields w n record) := by
  induction record generalizing w n with
  | nil => exact bufio.Writer.Wrote.nothing w he
  | cons field rest ih =>
    simp only [csv.encodeFields, csv.writeFields, List.length_append, List.append_assoc] at h ⊢
    have h1 : w.Wrote (if n > 0 then [44] else [])
        (if n > 0 then w.WriteByte 44 else (w, none)) := by
      by_cases hn : n > 0
      · simp only [hn, if_true] at h ⊢
        exact w.WriteByte_wrote 44 he (by simp only [List.length_singleton] at h; omega)
      · simp only [hn, if_false]
        exact bufio.Writer.Wrote.nothing w he
    refine thenDo_wrote h1 ?_
    obtain ⟨e1, f1⟩ := h1.fits _ h
    have h2 := csv.writeField_wrote field _ e1 (by omega)
    refine thenDo_wrote h2 ?_
    obtain ⟨e2, f2⟩ := h2.fits _ f1
    exact ih (n + 1) _ e2 f2

theorem csv.Write_wrote (record : List GoString) (w : bufio.Writer) (he : w.err = none)
    (h : w.buf.length + (csv.encodeRecord record).length ≤ w.wr.room) :
    w.Wrote (csv.encodeRecord record) (csv.Write w record) := by
  unfold csv.Write
  unfold csv.encodeRecord at h ⊢
  simp only [List.length_append, List.length_singleton] at h
  have h1 := csv.writeFields_wrote record 0 w he (by omega)
  refine thenDo_wrote h1 ?_
  obtain ⟨e1, f1⟩ := h1.fits 1 h
  exact bufio.Writer.WriteByte_wrote _ 10 e1 f1

theorem csv.encode_cons (r : List GoString) (rs : List (List GoString)) :
    csv.encode (r :: rs) = csv.encodeRecord r ++ csv.encode rs := rfl

theorem writeRows_wrote (snapshots : List Snapshot) (w : bufio.Writer) (he : w.err = none)
    (h : w.buf.length + (csv.encode (snapshots.map row)).length ≤ w.wr.room) :
    w.Wrote (csv.encode (snapshots.map row)) (writeRows w snapshots) := by
  induction snapshots generalizing w with
  | nil => exact bufio.Writer.Wrote.nothing w he
  | cons s rest ih =>
    simp only [List.map_cons, csv.encode_cons, List.length_append, writeRows] at h ⊢
    have h1 := csv.Write_wrote (row s) w he (by omega)
    refine thenDo_wrote h1 ?_
    obtain ⟨e1, f1⟩ := h1.fits _ h
    exact ih _ e1 f1

/-- With the file created and room on the device for the whole text, `writeSnapshotsToCSV`
returns nil and leaves in the file the header line and one line per snapshot. -/
theorem writeSnapshotsToCSV_fits (d : Disk) (snapshots : List Snapshot)
    (hc : d.createErr = none)
    (h : (csv.encode (headers :: snapshots.map row)).length ≤ d.room) :
    (writeSnapshotsToCSV d snapshots).2 = none
      ∧ (writeSnapshotsToCSV d snapshots).1.content
          = some (csv.encode (headers :: snapshots.map row)) := by
  generalize hh : headers = hd at h ⊢
  have hunf : writeSnapshotsToCSV d snapshots
      = ((csv.Flush (thenDo (csv.Write (bufio.NewWriter { d with content := some [] }) hd)
            fun w1 => writeRows w1 snapshots).1).wr,
         (thenDo (csv.Write (bufio.NewWriter { d with content := some [] }) hd)
            fun w1 => writeRows w1 snapshots).2) := by
    simp only [writeSnapshotsToCSV, os.Create, hc, hh]
  rw [hunf]
  rw [csv.encode_cons] at h ⊢
  rw [List.length_append] at h
  generalize hw : bufio.NewWriter { d with content := some [] } = w0
  have he : w0.err = none := by rw [← hw]; rfl
  have hbuf : w0.buf = [] := by rw [← hw]; rfl
  have hroom : w0.wr.room = d.room := by rw [← hw]; rfl
  have hstream : w0.stream = [] := by rw [← hw]; rfl
  have hsome : w0.wr.content.isSome = true := by rw [← hw]; rfl
  have h1 := csv.Write_wrote hd w0 he (by rw [hbuf, hroom, List.length_nil]; omega)
  obtain ⟨e1, f1⟩ := h1.fits (csv.encode (snapshots.map row)).length
    (by rw [hbuf, hroom, List.length_nil]; omega)
  have h2 := writeRows_wrote snapshots _ e1 f1
  have h3 := thenDo_wrote (f := fun w1 => writeRows w1 snapshots) h1 h2
  obtain ⟨e3, f3⟩ := h3.fits 0
    (by rw [hbuf, hroom, List.length_nil, List.length_append]; omega)
  obtain ⟨a1, a2, a3, a4, a5⟩ := h3
  obtain ⟨_, _, _, g4, _, g6⟩ := bufio.Writer.Flush_fits _ e3 (by omega)
  refine ⟨a1, ?_⟩
  simp only [csv.Flush]
  rw [a3, hstream, List.nil_append] at g4
  have g7 := g6 (a5 hsome)
  rw [← g4]
  cases hcont : (thenDo (csv.Write w0 hd) fun w1 => writeRows w1 snapshots).1.Flush.1.wr.content
    with
  | none => rw [hcont] at g7; cases g7
  | some x => rfl

/-! ## Reading the delimited text back -/

theorem csv.run_append (p : csv.Reader) (a b : GoString) :
    csv.run p (a ++ b) = (csv.run p a).bind fun q => csv.run q b := by
  induction a generalizing p with
  | nil => rfl
  | cons c rest ih =>
    simp only [List.cons_append, csv.run]
    cases csv.step p c with
    | none => rfl
    | some q => exact ih q

theorem csv.fieldNeedsQuotes_false (field : GoString) (h : csv.fieldNeedsQuotes field = false) :
    ∀ c ∈ field, c ≠ 34 ∧ c ≠ 44 ∧ c ≠ 10 ∧ c ≠ 13 := by
  intro c hc
  unfold csv.fieldNeedsQuotes at h
  by_cases h1 : field = []
  · subst h1; cases hc
  · by_cases h2 : field = [92, 46]
    · simp [h1, h2] at h
    · by_cases h3 : field.any csv.special = true
      · simp [h1, h2, h3] at h
      · simp only [List.any_eq_true, not_exists, not_and] at h3
        have := h3 c hc
        simp [csv.special] at this
        exact ⟨this.2.2.1, this.2.2.2, this.1, this.2.1⟩

theorem csv.run_bare (s : GoString) (rows : List (List GoString)) (record : List GoString)
    (field : GoString) (hs : ∀ c ∈ s, c ≠ 34 ∧ c ≠ 44 ∧ c ≠ 10 ∧ c ≠ 13) :
    csv.run ⟨rows, record, field, .bare⟩ s = some ⟨rows, record, field ++ s, .bare⟩ := by
  induction s generalizing field with
  | nil => simp [csv.run]
  | cons c rest ih =>
    obtain ⟨c1, c2, c3, c4⟩ := hs c (List.mem_cons_self _ _)
    simp only [csv.run, csv.step, c1, c2, c3, c4, if_false]
    rw [ih _ (fun x hx => hs x (List.mem_cons_of_mem _ hx))]
    simp

theorem csv.run_quoted (s : GoString) (rows : List (List GoString)) (record : List GoString)
    (field : GoString) :
    csv.run ⟨rows, record, field, .quoted⟩
        (s.map fun c => if c = 34 then [34, 34] else [c]).flatten
      = some ⟨rows, record, field ++ s, .quoted⟩ := by
  induction s generalizing field with
  | nil => simp [csv.run]
  | cons c rest ih =>
    simp only [List.map_cons, List.flatten_cons]
    by_cases hc : c = 34
    · subst hc
      show csv.run _ (34 :: 34 :: _) = _
      simp only [csv.run, csv.step, if_true, List.append_eq, List.nil_append]
      rw [ih]
      simp
    · simp only [hc, if_false]
      show csv.run _ (c :: _) = _
      simp only [csv.run, csv.step, hc, if_false, List.append_eq, List.nil_append]
      rw [ih]
      simp

/-- After the text of a field the reader holds the field and expects a comma or a line
break. -/
theorem csv.run_encodeField (field : GoString) (rows : List (List GoString))
    (record : List GoString) :
    ∃ m, csv.run ⟨rows, record, [], .start⟩ (csv.encodeField field)
        = some ⟨rows, record, field, m⟩ ∧ (m = .start ∨ m = .bare ∨ m = .closed) := by
  unfold csv.encodeField
  by_cases hq : csv.fieldNeedsQuotes field = true
  · simp only [hq, if_true]
    rw [List.append_assoc]
    show ∃ m, csv.run _ (34 :: _) = _ ∧ _
    simp only [csv.run, csv.step, if_true, List.append_eq, List.nil_append]
    rw [csv.run_append, csv.run_quoted]
    simp only [Option.some_bind, csv.run, csv.step, if_true, List.nil_append]
    exact ⟨_, rfl, Or.inr (Or.inr rfl)⟩
  · simp only [hq, if_false]
    have hs := csv.fieldNeedsQuotes_false field (by simpa using hq)
    cases field with
    | nil => exact ⟨_, rfl, Or.inl rfl⟩
    | cons c rest =>
      obtain ⟨c1, c2, c3, c4⟩ := hs c (List.mem_cons_self _ _)
      simp only [csv.run, csv.step, c1, c2, c3, c4, if_false]
      rw [csv.run_bare rest _ _ _ (fun x hx => hs x (List.mem_cons_of_mem _ hx))]
      exact ⟨_, rfl, Or.inr (Or.inl rfl)⟩

theorem csv.step_comma (rows : List (List GoString)) (record : List GoString)
    (field : GoString) (m : csv.Mode) (hm : m = .start ∨ m = .bare ∨ m = .closed) :
    csv.step ⟨rows, record, field, m⟩ 44 = some ⟨rows, record ++ [field], [], .start⟩ := by
  rcases hm with hm | hm | hm <;> subst hm <;> simp [csv.step, csv.Reader.endField]

theorem csv.step_lf (rows : List (List GoString)) (record : List GoString)
    (field : GoString) (m : csv.Mode) (hm : m = .start ∨ m = .bare ∨ m = .closed) :
    csv.step ⟨rows, record, field, m⟩ 10 = some ⟨rows ++ [record ++ [field]], [], [], .start⟩ := by
  rcases hm with hm | hm | hm <;> subst hm <;> simp [csv.step, csv.Reader.endRecord]

theorem csv.run_encodeFields (rest : List GoString) (n : Nat) (rows : List (List GoString))
    (record : List GoString) (field : GoString) (m : csv.Mode)
    (hm : m = .start ∨ m = .bare ∨ m = .closed) :
    csv.run ⟨rows, record, field, m⟩ (csv.encodeFields (n + 1) rest ++ [10])
      = some ⟨rows ++ [record ++ [field] ++ rest], [], [], .start⟩ := by
  induction rest generalizing n record field m with
  | nil => simp [csv.encodeFields, csv.run, csv.step_lf _ _ _ m hm]
  | cons g rest ih =>
    simp only [csv.encodeFields, Nat.succ_pos, if_true, gt_iff_lt, List.cons_append,
      List.nil_append, csv.run, csv.step_comma _ _ _ m hm, List.append_assoc]
    rw [csv.run_append]
    obtain ⟨m2, hq, hm2⟩ := csv.run_encodeField g rows (record ++ [field])
    rw [hq, Option.some_bind, ih (n + 1) _ _ m2 hm2]
    simp

theorem csv.run_encodeRecord (field : GoString) (rest : List GoString)
    (rows : List (List GoString)) :
    csv.run ⟨rows, [], [], .start⟩ (csv.encodeRecord (field :: rest))
      = some ⟨rows ++ [field :: rest], [], [], .start⟩ := by
  simp only [csv.encodeRecord, csv.encodeFields, gt_iff_lt, lt_self_iff_false, if_false,
    List.nil_append, List.append_assoc]
  rw [csv.run_append]
  obtain ⟨m, hq, hm⟩ := csv.run_encodeField field rows []
  rw [hq, Option.some_bind, csv.run_encodeFields rest 0 _ _ _ m hm]
  simp

theorem csv.run_encode (text : List (List GoString)) (hne : ∀ r ∈ text, r ≠ [])
    (rows : List (List GoString)) :
    csv.run ⟨rows, [], [], .start⟩ (csv.encode text) = some ⟨rows ++ text, [], [], .start⟩ := by
  induction text generalizing rows with
  | nil => simp [csv.encode, csv.run]
  | cons r text ih =>
    cases r with
    | nil => exact absurd rfl (hne [] (List.mem_cons_self _ _))
    | cons field rest =>
      rw [csv.encode_cons, csv.run_append, csv.run_encodeRecord field rest rows,
        Option.some_bind, ih (fun r hr => hne r (List.mem_cons_of_mem _ hr))]
      simp

/-- Reading back the text of records that each have a field gives the records. -/
theorem csv.parse_encode (rows : List (List GoString)) (hne : ∀ r ∈ rows, r ≠ []) :
    csv.parse (csv.encode rows) = some rows := by
  unfold csv.parse
  rw [csv.run_encode rows hne]
  simp

/-! ## Calendar: a day count and its date -/

theorem time.isLeap_iff (y : Int) :
    time.isLeap y = true ↔ y % 4 = 0 ∧ (y % 100 ≠ 0 ∨ y % 400 = 0) := by
  simp [time.isLeap]

theorem time.daysSinceEpoch_cycles (q n1 n2 n3 : Int) (h1 : 0 ≤ n1 ∧ n1 ≤ 3)
    (h2 : 0 ≤ n2 ∧ n2 ≤ 24) (h3 : 0 ≤ n3 ∧ n3 ≤ 3) :
    time.daysSinceEpoch (400 * q + 100 * n1 + 4 * n2 + n3 + 1)
      = 146097 * q + 36524 * n1 + 1461 * n2 + 365 * n3 := by
  simp only [time.daysSinceEpoch]
  have e1 : (400 * q + 100 * n1 + 4 * n2 + n3 + 1 - 1) / 400 = q := by omega
  rw [e1]
  have e2 : (400 * q + 100 * n1 + 4 * n2 + n3 + 1 - 1 - 400 * q) / 100 = n1 := by omega
  rw [e2]
  have e3 : (400 * q + 100 * n1 + 4 * n2 + n3 + 1 - 1 - 400 * q - 100 * n1) / 4 = n2 := by
    omega
  rw [e3]
  omega

theorem time.isLeap_cycles (q n1 n2 n3 : Int) (h1 : 0 ≤ n1 ∧ n1 ≤ 3)
    (h2 : 0 ≤ n2 ∧ n2 ≤ 24) (h3 : 0 ≤ n3 ∧ n3 ≤ 3) :
    time.isLeap (400 * q + 100 * n1 + 4 * n2 + n3 + 1) = true
      ↔ n3 = 3 ∧ (n2 ≠ 24 ∨ n1 = 3) := by
  rw [time.isLeap_iff]
  omega

/-- The cycles `absDate` cuts a day count into. -/
theorem time.absYearDay_cycles (days : Int) :
    ∃ q n1 n2 n3 d : Int, (0 ≤ n1 ∧ n1 ≤ 3) ∧ (0 ≤ n2 ∧ n2 ≤ 24) ∧ (0 ≤ n3 ∧ n3 ≤ 3)
      ∧ time.absYearDay days = (400 * q + 100 * n1 + 4 * n2 + n3 + 1, d)
      ∧ days = 146097 * q + 36524 * n1 + 1461 * n2 + 365 * n3 + d
      ∧ 0 ≤ d ∧ d ≤ 365 ∧ (d = 365 → n3 = 3 ∧ (n2 ≠ 24 ∨ n1 = 3)) := by
  simp only [time.absYearDay]
  generalize hq : days / 146097 = q
  generalize hd1 : days - 146097 * q = d1
  have b1 : 0 ≤ d1 ∧ d1 ≤ 146096 := by omega
  generalize hm1 : d1 / 36524 = m1
  generalize hn1 : m1 - m1 / 4 = n1
  have c1 : 0 ≤ n1 ∧ n1 ≤ 3 := by omega
  generalize hd2 : d1 - 36524 * n1 = d2
  have b2 : 0 ≤ d2 ∧ d2 ≤ 36524 ∧ (n1 ≠ 3 → d2 ≤ 36523) := by omega
  generalize hn2 : d2 / 1461 = n2
  have c2 : 0 ≤ n2 ∧ n2 ≤ 24 := by omega
  generalize hd3 : d2 - 1461 * n2 = d3
  have b3 : 0 ≤ d3 ∧ d3 ≤ 1460 ∧ (n2 = 24 → n1 ≠ 3 → d3 ≤ 1459) := by omega
  generalize hm3 : d3 / 365 = m3
  generalize hn3 : m3 - m3 / 4 = n3
  have c3 : 0 ≤ n3 ∧ n3 ≤ 3 := by omega
  generalize hd4 : d3 - 365 * n3 = d4
  refine ⟨q, n1, n2, n3, d4, c1, c2, c3, rfl, by omega, by omega, by omega, ?_⟩
  intro h
  omega

/-- The year and the day within it account for the day count, and the day lies within the
year. -/
theorem time.absYearDay_spec (days : Int) :
    time.daysSinceEpoch (time.absYearDay days).1 + (time.absYearDay days).2 = days
      ∧ 0 ≤ (time.absYearDay days).2
      ∧ (time.absYearDay days).2 ≤ 365
      ∧ ((time.absYearDay days).2 = 365 → time.isLeap (time.absYearDay days).1 = true) := by
  obtain ⟨q, n1, n2, n3, d, c1, c2, c3, he, hd, d0, d1, d2⟩ := time.absYearDay_cycles days
  rw [he]
  simp only
  rw [time.daysSinceEpoch_cycles q n1 n2 n3 c1 c2 c3, time.isLeap_cycles q n1 n2 n3 c1 c2 c3]
  exact ⟨by omega, d0, d1, d2⟩

theorem time.daysBefore_table :
    time.daysBefore 0 = 0 ∧ time.daysBefore 1 = 31 ∧ time.daysBefore 2 = 59
      ∧ time.daysBefore 3 = 90 ∧ time.daysBefore 4 = 120 ∧ time.daysBefore 5 = 151
      ∧ time.daysBefore 6 = 181 ∧ time.daysBefore 7 = 212 ∧ time.daysBefore 8 = 243
      ∧ time.daysBefore 9 = 273 ∧ time.daysBefore 10 = 304 ∧ time.daysBefore 11 = 334
      ∧ time.daysBefore 12 = 365 := by decide

/-- The month estimate `day / 31` is the month or one too low. -/
theorem time.monthDay_common (day : Int) (h0 : 0 ≤ day) (h1 : day ≤ 364) :
    ∃ m dd : Int,
      (if day ≥ time.daysBefore (day / 31 + 1)
        then (day / 31 + 2, day - time.daysBefore (day / 31 + 1) + 1)
        else (day / 31 + 1, day - time.daysBefore (day / 31) + 1)) = (m, dd)
      ∧ 1 ≤ m ∧ m ≤ 12 ∧ 1 ≤ dd ∧ time.daysBefore (m - 1) + (dd - 1) = day
      ∧ day < time.daysBefore m := by
  obtain ⟨t0, t1, t2, t3, t4, t5, t6, t7, t8, t9, t10, t11, t12⟩ := time.daysBefore_table
  generalize hk : day / 31 = k
  have hk3 : k = 0 ∨ k = 1 ∨ k = 2 ∨ k = 3 ∨ k = 4 ∨ k = 5 ∨ k = 6 ∨ k = 7 ∨ k = 8 ∨ k = 9
      ∨ k = 10 ∨ k = 11 := by omega
  rcases hk3 with h | h | h | h | h | h | h | h | h | h | h | h <;> subst h
  · rw [show (0 : Int) + 1 = 1 from rfl, show (0 : Int) + 2 = 2 from rfl, t0, t1]
    by_cases hc : day ≥ 31
    · rw [if_pos hc]; refine ⟨2, _, rfl, ?_⟩; rw [show (2 : Int) - 1 = 1 from rfl, t1, t2]; omega
    · rw [if_neg hc]; refine ⟨1, _, rfl, ?_⟩; rw [show (1 : Int) - 1 = 0 from rfl, t0, t1]; omega
  · rw [show (1 : Int) + 1 = 2 from rfl, show (1 : Int) + 2 = 3 from rfl, t1, t2]
    by_cases hc : day ≥ 59
    · rw [if_pos hc]; refine ⟨3, _, rfl, ?_⟩; rw [show (3 : Int) - 1 = 2 from rfl, t2, t3]; omega
    · rw [if_neg hc]; refine ⟨2, _, rfl, ?_⟩; rw [show (2 : Int) - 1 = 1 from rfl, t1, t2]; omega
  · rw [show (2 : Int) + 1 = 3 from rfl, show (2 : Int) + 2 = 4 from rfl, t2, t3]
    by_cases hc : day ≥ 90
    · rw [if_pos hc]; refine ⟨4, _, rfl, ?_⟩; rw [show (4 : Int) - 1 = 3 from rfl, t3, t4]; omega
    · rw [if_neg hc]; refine ⟨3, _, rfl, ?_⟩; rw [show (3 : Int) - 1 = 2 from rfl, t2, t3]; omega
  · rw [show (3 : Int) + 1 = 4 from rfl, show (3 : Int) + 2 = 5 from rfl, t3, t4]
    by_cases hc : day ≥ 120
    · rw [if_pos hc]; refine ⟨5, _, rfl, ?_⟩; rw [show (5 : Int) - 1 = 4 from rfl, t4, t5]; omega
    · rw [if_neg hc]; refine ⟨4, _, rfl, ?_⟩; rw [show (4 : Int) - 1 = 3 from rfl, t3, t4]; omega
  · rw [show (4 : Int) + 1 = 5 from rfl, show (4 : Int) + 2 = 6 from rfl, t4, t5]
    by_cases hc : day ≥ 151
    · rw [if_pos hc]; refine ⟨6, _, rfl, ?_⟩; rw [show (6 : Int) - 1 = 5 from rfl, t5, t6]; omega
    · rw [if_neg hc]; refine ⟨5, _, rfl, ?_⟩; rw [show (5 : Int) - 1 = 4 from rfl, t4, t5]; omega
  · rw [show (5 : Int) + 1 = 6 from rfl, show (5 : Int) + 2 = 7 from rfl, t5, t6]
    by_cases hc : day ≥ 181
    · rw [if_pos hc]; refine ⟨7, _, rfl, ?_⟩; rw [show (7 : Int) - 1 = 6 from rfl, t6, t7]; omega
    · rw [if_neg hc]; refine ⟨6, _, rfl, ?_⟩; rw [show (6 : Int) - 1 = 5 from rfl, t5, t6]; omega
  · rw [show (6 : Int) + 1 = 7 from rfl, show (6 : Int) + 2 = 8 from rfl, t6, t7]
    by_cases hc : day ≥ 212
    · rw [if_pos hc]; refine ⟨8, _, rfl, ?_⟩; rw [show (8 : Int) - 1 = 7 from rfl, t7, t8]; omega
    · rw [if_neg hc]; refine ⟨7, _, rfl, ?_⟩; rw [show (7 : Int) - 1 = 6 from rfl, t6, t7]; omega
  · rw [show (7 : Int) + 1 = 8 from rfl, show (7 : Int) + 2 = 9 from rfl, t7, t8]
    by_cases hc : day ≥ 243
    · rw [if_pos hc]; refine ⟨9, _, rfl, ?_⟩; rw [show (9 : Int) - 1 = 8 from rfl, t8, t9]; omega
    · rw [if_neg hc]; refine ⟨8, _, rfl, ?_⟩; rw [show (8 : Int) - 1 = 7 from rfl, t7, t8]; omega
  · rw [show (8 : Int) + 1 = 9 from rfl, show (8 : Int) + 2 = 10 from rfl, t8, t9]
    by_cases hc : day ≥ 273
    · rw [if_pos hc]; refine ⟨10, _, rfl, ?_⟩
      rw [show (10 : Int) - 1 = 9 from rfl, t9, t10]; omega
    · rw [if_neg hc]; refine ⟨9, _, rfl, ?_⟩; rw [show (9 : Int) - 1 = 8 from rfl, t8, t9]; omega
  · rw [show (9 : Int) + 1 = 10 from rfl, show (9 : Int) + 2 = 11 from rfl, t9, t10]
    by_cases hc : day ≥ 304
    · rw [if_pos hc]; refine ⟨11, _, rfl, ?_⟩
      rw [show (11 : Int) - 1 = 10 from rfl, t10, t11]; omega
    · rw [if_neg hc]; refine ⟨10, _, rfl, ?_⟩
      rw [show (10 : Int) - 1 = 9 from rfl, t9, t10]; omega
  · rw [show (10 : Int) + 1 = 11 from rfl, show (10 : Int) + 2 = 12 from rfl, t10, t11]
    by_cases hc : day ≥ 334
    · rw [if_pos hc]; refine ⟨12, _, rfl, ?_⟩
      rw [show (12 : Int) - 1 = 11 from rfl, t11, t12]; omega
    · rw [if_neg hc]; refine ⟨11, _, rfl, ?_⟩
      rw [show (11 : Int) - 1 = 10 from rfl, t10, t11]; omega
  · rw [show (11 : Int) + 1 = 12 from rfl, t11, t12]
    have hc : ¬ day ≥ 365 := by omega
    rw [if_neg hc]; refine ⟨12, _, rfl, ?_⟩
    rw [show (12 : Int) - 1 = 11 from rfl, t11, t12]; omega

theorem time.daysBefore_march (m : Int) (h1 : 1 ≤ m) (h2 : m ≤ 12) :
    (m ≤ 2 → time.daysBefore m ≤ 59) ∧ (3 ≤ m → 59 ≤ time.daysBefore (m - 1)) := by
  obtain ⟨t0, t1, t2, t3, t4, t5, t6, t7, t8, t9, t10, t11, t12⟩ := time.daysBefore_table
  have hm : m = 1 ∨ m = 2 ∨ m = 3 ∨ m = 4 ∨ m = 5 ∨ m = 6 ∨ m = 7 ∨ m = 8 ∨ m = 9 ∨ m = 10
      ∨ m = 11 ∨ m = 12 := by omega
  rcases hm with h | h | h | h | h | h | h | h | h | h | h | h <;> subst h <;>
    norm_num <;> omega

/-- Month and day of month account for the day within the year, and the day of month exists
in that month. -/
theorem time.monthDay_spec (leap : Bool) (yday : Int) (h0 : 0 ≤ yday) (h1 : yday ≤ 365)
    (h2 : yday = 365 → leap = true) :
    1 ≤ (time.monthDay leap yday).1 ∧ (time.monthDay leap yday).1 ≤ 12
      ∧ 1 ≤ (time.monthDay leap yday).2
      ∧ (time.monthDay leap yday).2
          ≤ (if (time.monthDay leap yday).1 = 2 ∧ leap = true then 29
             else time.daysBefore (time.monthDay leap yday).1
                    - time.daysBefore ((time.monthDay leap yday).1 - 1))
      ∧ time.daysBefore ((time.monthDay leap yday).1 - 1)
          + (if leap = true ∧ (time.monthDay leap yday).1 ≥ 3 then 1 else 0)
          + ((time.monthDay leap yday).2 - 1) = yday := by
  obtain ⟨t0, t1, t2, t3, t4, t5, t6, t7, t8, t9, t10, t11, t12⟩ := time.daysBefore_table
  unfold time.monthDay
  by_cases hl : leap = true
  · by_cases h59 : yday = 31 + 29 - 1
    · rw [if_pos ⟨hl, h59⟩]
      simp only [hl, and_self, if_true]
      rw [show (2 : Int) - 1 = 1 from rfl, t1]
      simp only [show ¬ ((2 : Int) ≥ 3) by omega, and_false, if_false]
      omega
    · rw [if_neg (fun h => h59 h.2)]
      by_cases hgt : yday > 31 + 29 - 1
      · simp only [hl, hgt, and_self, if_true]
        obtain ⟨m, dd, he, m1, m2, d1, hs, hlt⟩ := time.monthDay_common (yday - 1)
          (by omega) (by omega)
        rw [he]
        simp only
        obtain ⟨a1, a2⟩ := time.daysBefore_march m m1 m2
        have hm3 : 3 ≤ m := by
          by_contra hcon
          have := a1 (by omega)
          omega
        have hm2 : ¬ m = 2 := by omega
        simp only [hm2, false_and, if_false, ge_iff_le, hm3, and_self, if_true, true_and]
        omega
      · have hgt2 : ¬ (leap = true ∧ yday > 31 + 29 - 1) := fun h => hgt h.2
        rw [if_neg hgt2]
        obtain ⟨m, dd, he, m1, m2, d1, hs, hlt⟩ := time.monthDay_common yday h0 (by omega)
        rw [he]
        simp only
        obtain ⟨a1, a2⟩ := time.daysBefore_march m m1 m2
        have hm3 : ¬ 3 ≤ m := by
          intro hcon
          have := a2 hcon
          omega
        simp only [hl, and_true, ge_iff_le, hm3, and_false, if_false, true_and]
        refine ⟨m1, m2, d1, ?_, by omega⟩
        split_ifs with hm
        · subst hm
          rw [show (2 : Int) - 1 = 1 from rfl, t1] at hs
          rw [t2] at hlt
          omega
        · omega
  · have hl2 : ¬ (leap = true ∧ yday = 31 + 29 - 1) := fun h => hl h.1
    have hl3 : ¬ (leap = true ∧ yday > 31 + 29 - 1) := fun h => hl h.1
    rw [if_neg hl2, if_neg hl3]
    obtain ⟨m, dd, he, m1, m2, d1, hs, hlt⟩ := time.monthDay_common yday h0
      (by by_contra hcon; exact hl (h2 (by omega)))
    rw [he]
    have hf : leap = false := by simpa using hl
    subst hf
    simp only [Bool.false_eq_true, and_false, false_and, if_false]
    exact ⟨m1, m2, d1, by omega, by omega⟩

/-- The date `absDate` gives for a day count exists in the calendar and, counted back in
days as `Date` does, gives the day count. -/
theorem time.absDate_spec (days : Int) :
    1 ≤ (time.absDate days).2.1 ∧ (time.absDate days).2.1 ≤ 12
      ∧ 1 ≤ (time.absDate days).2.2
      ∧ (time.absDate days).2.2 ≤ time.daysIn (time.absDate days).2.1 (time.absDate days).1
      ∧ time.daysSinceEpoch (time.absDate days).1
          + time.daysBefore ((time.absDate days).2.1 - 1)
          + (if time.isLeap (time.absDate days).1 = true ∧ (time.absDate days).2.1 ≥ 3
              then 1 else 0)
          + ((time.absDate days).2.2 - 1) = days := by
  obtain ⟨s1, s2, s3, s4⟩ := time.absYearDay_spec days
  unfold time.absDate time.daysIn
  obtain ⟨a1, a2, a3, a4, a5⟩ := time.monthDay_spec
    (time.isLeap (time.absYearDay days).1) (time.absYearDay days).2 s2 s3 s4
  simp only
  exact ⟨a1, a2, a3, a4, by omega⟩

/-! ## Rendering a time and reading it back -/

theorem time.appendInt_two (n : Nat) (h : n < 100) :
    time.appendInt (n : Int) 2 = [48 + n / 10, 48 + n % 10] := by
  have h0 : ¬ ((n : Int) < 0) := by omega
  simp [time.appendInt, h0, h]

theorem time.appendInt_four (n : Nat) (h : n < 10000) :
    time.appendInt (n : Int) 4
      = [48 + n / 1000, 48 + n / 100 % 10, 48 + n / 10 % 10, 48 + n % 10] := by
  have h0 : ¬ ((n : Int) < 0) := by omega
  simp [time.appendInt, h0, h]

theorem time.isDigit_add (a : Nat) (h : a < 10) : time.isDigit (48 + a) = true := by
  simp only [time.isDigit, Bool.and_eq_true, decide_eq_true_eq]
  show (48 : Nat) ≤ 48 + a ∧ (48 : Nat) + a ≤ 57
  omega

theorem time.parseUint_two (a b lo hi : Nat) (ha : a < 10) (hb : b < 10)
    (hlo : lo ≤ 10 * a + b) (hhi : 10 * a + b ≤ hi) :
    time.parseUint [48 + a, 48 + b] lo hi = some (10 * a + b) := by
  have hx : ¬ (a * 10 + b < lo ∨ hi < a * 10 + b) := by omega
  simp [time.parseUint, time.isDigit_add, ha, hb, hx]
  omega

theorem time.parseUint_four (a b c d lo hi : Nat) (ha : a < 10) (hb : b < 10) (hc : c < 10)
    (hd : d < 10) (hlo : lo ≤ 1000 * a + 100 * b + 10 * c + d)
    (hhi : 1000 * a + 100 * b + 10 * c + d ≤ hi) :
    time.parseUint [48 + a, 48 + b, 48 + c, 48 + d] lo hi
      = some (1000 * a + 100 * b + 10 * c + d) := by
  have hx : ¬ (((a * 10 + b) * 10 + c) * 10 + d < lo ∨ hi < ((a * 10 + b) * 10 + c) * 10 + d) := by
    omega
  simp [time.parseUint, time.isDigit_add, ha, hb, hc, hd, hx]
  omega

theorem time.parseUint_two_of (n lo hi : Nat) (h : n < 100) (hlo : lo ≤ n) (hhi : n ≤ hi) :
    time.parseUint [48 + n / 10, 48 + n % 10] lo hi = some n := by
  rw [time.parseUint_two (n / 10) (n % 10) lo hi (by omega) (by omega) (by omega) (by omega)]
  congr 1
  omega

theorem time.parseUint_four_of (n lo hi : Nat) (h : n < 10000) (hlo : lo ≤ n) (hhi : n ≤ hi) :
    time.parseUint [48 + n / 1000, 48 + n / 100 % 10, 48 + n / 10 % 10, 48 + n % 10] lo hi
      = some n := by
  rw [time.parseUint_four (n / 1000) (n / 100 % 10) (n / 10 % 10) (n % 10) lo hi (by omega)
    (by omega) (by omega) (by omega) (by omega) (by omega)]
  congr 1
  omega

theorem time.daysIn_le (m year : Int) (h1 : 1 ≤ m) (h2 : m ≤ 12) : time.daysIn m year ≤ 31 := by
  obtain ⟨t0, t1, t2, t3, t4, t5, t6, t7, t8, t9, t10, t11, t12⟩ := time.daysBefore_table
  unfold time.daysIn
  split_ifs
  · omega
  · have hm : m = 1 ∨ m = 2 ∨ m = 3 ∨ m = 4 ∨ m = 5 ∨ m = 6 ∨ m = 7 ∨ m = 8 ∨ m = 9 ∨ m = 10
        ∨ m = 11 ∨ m = 12 := by omega
    rcases hm with h | h | h | h | h | h | h | h | h | h | h | h <;> subst h <;>
      norm_num <;> omega

/-- What `parseRFC3339` makes of a text in the layout, field by field. -/
theorem time.parseRFC3339_fields (Y M D h i s : Nat) (zone : GoString) (off : Int)
    (hY : Y ≤ 9999) (hM1 : 1 ≤ M) (hM2 : M ≤ 12) (hD1 : 1 ≤ D)
    (hD2 : (D : Int) ≤ time.daysIn M Y) (hh : h ≤ 23) (hi : i ≤ 59) (hs : s ≤ 59)
    (hz : time.parseZone zone = some off) (hz2 : zone.head? ≠ some 46) :
    time.parseRFC3339
        ([48 + Y / 1000, 48 + Y / 100 % 10, 48 + Y / 10 % 10, 48 + Y % 10, 45,
          48 + M / 10, 48 + M % 10, 45, 48 + D / 10, 48 + D % 10, 84,
          48 + h / 10, 48 + h % 10, 58, 48 + i / 10, 48 + i % 10, 58,
          48 + s / 10, 48 + s % 10] ++ zone)
      = some (time.Date Y M D h i s 0 off) := by
  have hD3 := time.daysIn_le M Y (by omega) (by omega)
  simp only [List.cons_append, List.nil_append, time.parseRFC3339]
  rw [time.parseUint_four_of Y 0 9999 (by omega) (by omega) hY,
    time.parseUint_two_of M 1 12 (by omega) hM1 hM2]
  simp only
  rw [time.parseUint_two_of D 1 _ (by omega) hD1 (by omega),
    time.parseUint_two_of h 0 23 (by omega) (by omega) hh,
    time.parseUint_two_of i 0 59 (by omega) (by omega) hi,
    time.parseUint_two_of s 0 59 (by omega) (by omega) hs]
  simp only [and_self, if_true, hz2, false_and, if_false, hz]
  rfl

/-- The zone `Format` writes for an offset of whole minutes below 24 hours reads back as the
offset, and does not start a fraction. -/
theorem time.parseZone_formatZone (offset : Int) (h60 : offset % 60 = 0)
    (hlo : -86400 < offset) (hhi : offset < 86400) :
    time.parseZone (time.formatZone offset) = some offset
      ∧ (time.formatZone offset).head? ≠ some 46 := by
  unfold time.formatZone
  by_cases h0 : offset = 0
  · subst h0
    simp [time.parseZone]
  · rw [if_neg h0]
    by_cases hneg : offset < 0
    · have hq : time.quo60 offset = -(-offset / 60) := by simp only [time.quo60, hneg, if_true]
      have hz : -(-offset / 60) < 0 := by omega
      simp only [hq, hz, if_true, neg_neg]
      obtain ⟨z, hzz⟩ : ∃ z : Nat, (z : Int) = -offset / 60 := ⟨(-offset / 60).toNat, by omega⟩
      rw [← hzz]
      have e1 : (z : Int) / 60 = ((z / 60 : Nat) : Int) := by omega
      have e2 : (z : Int) % 60 = ((z % 60 : Nat) : Int) := by omega
      rw [e1, e2, time.appendInt_two _ (by omega), time.appendInt_two _ (by omega)]
      simp only [List.cons_append, List.nil_append, time.parseZone, List.head?_cons]
      rw [time.parseUint_two_of (z / 60) 0 23 (by omega) (by omega) (by omega),
        time.parseUint_two_of (z % 60) 0 59 (by omega) (by omega) (by omega)]
      simp only [true_or, and_self, if_true]
      refine ⟨?_, by simp⟩
      congr 1
      push_cast
      omega
    · have hq : time.quo60 offset = offset / 60 := by simp only [time.quo60, hneg, if_false]
      have hz : ¬ (offset / 60 < 0) := by omega
      simp only [hq, hz, if_false]
      obtain ⟨z, hzz⟩ : ∃ z : Nat, (z : Int) = offset / 60 := ⟨(offset / 60).toNat, by omega⟩
      rw [← hzz]
      have e1 : (z : Int) / 60 = ((z / 60 : Nat) : Int) := by omega
      have e2 : (z : Int) % 60 = ((z % 60 : Nat) : Int) := by omega
      rw [e1, e2, time.appendInt_two _ (by omega), time.appendInt_two _ (by omega)]
      simp only [List.cons_append, List.nil_append, time.parseZone, List.head?_cons]
      rw [time.parseUint_two_of (z / 60) 0 23 (by omega) (by omega) (by omega),
        time.parseUint_two_of (z % 60) 0 59 (by omega) (by omega) (by omega)]
      simp only [or_true, and_self, if_true]
      refine ⟨?_, by simp⟩
      have h4345 : ¬ ((43 : Nat) = 45) := by omega
      simp only [h4345, if_false]
      congr 1
      push_cast
      omega

/-- What `Date` gives on a date of the calendar and a time of day within the day. -/
theorem time.Date_inRange (year month day hour min sec offset days : Int)
    (hm1 : 1 ≤ month) (hm2 : month ≤ 12) (hh1 : 0 ≤ hour) (hh2 : hour ≤ 23)
    (hi1 : 0 ≤ min) (hi2 : min ≤ 59) (hs1 : 0 ≤ sec) (hs2 : sec ≤ 59)
    (hd : time.daysSinceEpoch year + time.daysBefore (month - 1)
      + (if time.isLeap year = true ∧ month ≥ 3 then 1 else 0) + (day - 1) = days) :
    time.Date year month day hour min sec 0 offset
      = { sec := days * 86400 + hour * 3600 + min * 60 + sec - time.unixEpochDays * 86400
                  - offset,
          nsec := 0, offset := offset } := by
  have e1 : (month - 1) / 12 = 0 := by omega
  have e2 : (month - 1) % 12 + 1 = month := by omega
  have e3 : (sec + 0 / 1000000000) = sec := by omega
  have e4 : sec / 60 = 0 := by omega
  have e5 : sec % 60 = sec := by omega
  have e6 : min / 60 = 0 := by omega
  have e7 : min % 60 = min := by omega
  have e8 : hour / 24 = 0 := by omega
  have e9 : hour % 24 = hour := by omega
  simp only [time.Date, e1, e2, e3, e4, e5, e6, e7, e8, e9, add_zero, ← hd]
  simp

/-- Reading back what `Format` wrote of a renderable time gives the time, to the second. -/
theorem time.parseRFC3339_Format (t : Time) (ht : t.renderable) :
    time.parseRFC3339 t.Format = some { sec := t.sec, nsec := 0, offset := t.offset } := by
  obtain ⟨y0, y1, o60, olo, ohi⟩ := ht
  obtain ⟨m1, m2, d1, d2, hsum⟩ := time.absDate_spec (t.abs / 86400)
  obtain ⟨hz, hz2⟩ := time.parseZone_formatZone t.offset o60 olo ohi
  unfold Time.Format
  rcases habs : time.absDate (t.abs / 86400) with ⟨year, month, day⟩
  rw [habs] at y0 y1 m1 m2 d1 d2 hsum
  simp only at y0 y1 m1 m2 d1 d2 hsum ⊢
  have hD3 := time.daysIn_le month year m1 m2
  obtain ⟨Y, hY⟩ : ∃ Y : Nat, (Y : Int) = year := ⟨year.toNat, by omega⟩
  obtain ⟨M, hM⟩ : ∃ M : Nat, (M : Int) = month := ⟨month.toNat, by omega⟩
  obtain ⟨D, hD⟩ : ∃ D : Nat, (D : Int) = day := ⟨day.toNat, by omega⟩
  obtain ⟨h, hh⟩ : ∃ h : Nat, (h : Int) = t.abs % 86400 / 3600 :=
    ⟨(t.abs % 86400 / 3600).toNat, by omega⟩
  obtain ⟨i, hi⟩ : ∃ i : Nat, (i : Int) = t.abs % 86400 % 3600 / 60 :=
    ⟨(t.abs % 86400 % 3600 / 60).toNat, by omega⟩
  obtain ⟨s, hs⟩ : ∃ s : Nat, (s : Int) = t.abs % 86400 % 60 :=
    ⟨(t.abs % 86400 % 60).toNat, by omega⟩
  rw [← hY, ← hM, ← hD, ← hh, ← hi, ← hs]
  rw [time.appendInt_four Y (by omega), time.appendInt_two M (by omega),
    time.appendInt_two D (by omega), time.appendInt_two h (by omega),
    time.appendInt_two i (by omega), time.appendInt_two s (by omega)]
  simp only [List.cons_append, List.nil_append, List.append_assoc]
  have := time.parseRFC3339_fields Y M D h i s (time.formatZone t.offset) t.offset
    (by omega) (by omega) (by omega) (by omega) (by rw [hM, hY, hD]; exact d2) (by omega)
    (by omega) (by omega) hz hz2
  simp only [List.cons_append, List.nil_append] at this
  rw [this, time.Date_inRange Y M D h i s t.offset (t.abs / 86400) (by omega) (by omega)
    (by omega) (by omega) (by omega) (by omega) (by omega) (by omega)
    (by rw [hM, hY, hD]; exact hsum)]
  congr 1
  simp only [Time.mk.injEq, and_true]
  unfold Time.abs at hh hi hs ⊢
  simp only [time.unixEpochDays] at *
  omega

theorem readRow_row (s : Snapshot) (ht : s.SnapshotCreateTime.renderable) :
    readRow (row s)
      = some { s with SnapshotCreateTime := s.SnapshotCreateTime.truncSeconds } := by
  simp only [readRow, row, time.parseRFC3339_Format _ ht, Time.truncSeconds]

theorem rows_ne_nil (snapshots : List Snapshot) :
    ∀ r ∈ headers :: snapshots.map row, r ≠ [] := by
  intro r hr
  rcases List.mem_cons.mp hr with h | h
  · subst h; exact List.cons_ne_nil _ _
  · obtain ⟨s, _, hs⟩ := List.mem_map.mp h
    subst hs; exact List.cons_ne_nil _ _

theorem readSnapshots_encode (first : List GoString) (rows : List (List GoString))
    (hne : ∀ r ∈ first :: rows, r ≠ []) :
    readSnapshots (csv.encode (first :: rows)) = some (rows.map readRow) := by
  unfold readSnapshots
  rw [csv.parse_encode _ hne]

/-! ## Claims about the writer and the program -/

/-- C7, as amended: with the file created and room on the device for the whole text,
`writeSnapshotsToCSV` returns nil and the file holds, as text and as read back, the fixed
six-column header row followed by one six-column row per record in input order: identifier,
ARN, resource identifier, the creation time as `Format(time.RFC3339)` writes it, status, scope;
for every record whose creation time is renderable (year of the wall clock reading within
0..9999, offset a whole number of minutes below 24 hours) that cell is an RFC 3339 date-time
with UTC offset for the creation time, to the second; for the empty list the file holds the
header row alone. -/
theorem C7_header_then_rows (d : Disk) (snapshots : List Snapshot) (hc : d.createErr = none)
    (hroom : (csv.encode (headers :: snapshots.map row)).length ≤ d.room) :
    (writeSnapshotsToCSV d snapshots).2 = none
      ∧ (writeSnapshotsToCSV d snapshots).1.content
          = some (csv.encode (headers :: snapshots.map row))
      ∧ (writeSnapshotsToCSV d snapshots).1.content.bind csv.parse
          = some (headers :: snapshots.map fun s =>
              [s.SnapshotIdentifier, s.SnapshotARN, s.ResourceIdentifier,
               s.SnapshotCreateTime.Format, s.Status, s.SnapshotScope])
      ∧ headers = [ascii "SnapshotIdentifier", ascii "SnapshotARN",
          ascii "DBClusterIdentifier / DBInstanceIdentifier", ascii "SnapshotCreateTime",
          ascii "Status", ascii "Scope"]
      ∧ (∀ s ∈ snapshots, s.SnapshotCreateTime.renderable →
          s.SnapshotCreateTime.isRFC3339 s.SnapshotCreateTime.Format)
      ∧ (snapshots = [] →
          (writeSnapshotsToCSV d snapshots).1.content.bind csv.parse = some [headers]) := by
  obtain ⟨h1, h2⟩ := writeSnapshotsToCSV_fits d snapshots hc hroom
  have h3 : (writeSnapshotsToCSV d snapshots).1.content.bind csv.parse
      = some (headers :: snapshots.map row) := by
    rw [h2, Option.some_bind, csv.parse_encode _ (rows_ne_nil snapshots)]
  refine ⟨h1, h2, h3, rfl, fun s _ ht => time.parseRFC3339_Format _ ht, ?_⟩
  intro he
  rw [h3, he]
  rfl

set_option maxRecDepth 100000 in
/-- C7 as amended, at a concrete input: two snapshots with renderable times, one in a zone of
+05:30 and one in UTC, on a device with room. -/
theorem C7_header_then_rows_witness :
    scenarioDisk.createErr = none
      ∧ (csv.encode (headers :: [scenarioSnapshot, plainSnapshot].map row)).length
          ≤ scenarioDisk.room
      ∧ (writeSnapshotsToCSV scenarioDisk [scenarioSnapshot, plainSnapshot]).1.content.bind
          csv.parse
          = some [headers,
              [ascii "a,b", ascii "arn \"x\"", ascii " db1", ascii "2024-11-04T10:40:00+05:30",
               ascii "line\r\nbreak", ascii "CLUSTER"],
              [ascii "snap-1", ascii "arn:aws:rds:us-east-1:1:snapshot:snap-1", ascii "db1",
               ascii "2024-11-04T10:40:00Z", ascii "available", ascii "INSTANCE"]]
      ∧ scenarioSnapshot.SnapshotCreateTime.renderable
      ∧ plainSnapshot.SnapshotCreateTime.renderable
      ∧ scenarioSnapshot.SnapshotCreateTime.isRFC3339 (ascii "2024-11-04T10:40:00+05:30")
      ∧ plainSnapshot.SnapshotCreateTime.isRFC3339 (ascii "2024-11-04T10:40:00Z") :=
  ⟨rfl, by decide,
    (C7_header_then_rows scenarioDisk [scenarioSnapshot, plainSnapshot] rfl
      (by decide)).2.2.1,
    by decide, by decide,
    (C7_header_then_rows scenarioDisk [scenarioSnapshot, plainSnapshot] rfl
      (by decide)).2.2.2.2.1 scenarioSnapshot (by decide) (by decide),
    (C7_header_then_rows scenarioDisk [scenarioSnapshot, plainSnapshot] rfl
      (by decide)).2.2.2.2.1 plainSnapshot (by decide) (by decide)⟩

set_option maxRecDepth 100000 in
/-- C7 as stated fails: the file is written in full, yet the creation time in the year 10000
is written with a five-digit year, which is no RFC 3339 date-time, and the creation time in
the location 19 minutes and 32 seconds east of UTC is written with the zone `+00:19`, an
RFC 3339 date-time for an instant 32 seconds later at another offset. -/
theorem C7_counterexample :
    (writeSnapshotsToCSV scenarioDisk [farFutureSnapshot, amsterdamSnapshot]).2 = none
      ∧ (writeSnapshotsToCSV scenarioDisk [farFutureSnapshot, amsterdamSnapshot]).1.content.bind
          csv.parse
          = some [headers,
              [ascii "a,b", ascii "arn \"x\"", ascii " db1", ascii "10000-01-01T00:00:00Z",
               ascii "line\r\nbreak", ascii "CLUSTER"],
              [ascii "a,b", ascii "arn \"x\"", ascii " db1", ascii "1930-01-01T00:19:32+00:19",
               ascii "line\r\nbreak", ascii "CLUSTER"]]
      ∧ ¬ farFutureSnapshot.SnapshotCreateTime.isRFC3339 (ascii "10000-01-01T00:00:00Z")
      ∧ time.parseRFC3339 (ascii "10000-01-01T00:00:00Z") = none
      ∧ ¬ amsterdamSnapshot.SnapshotCreateTime.isRFC3339 (ascii "1930-01-01T00:19:32+00:19")
      ∧ time.parseRFC3339 (ascii "1930-01-01T00:19:32+00:19")
          = some { sec := -1262303968, nsec := 0, offset := 1140 } := by
  decide

/-- C4, as amended: for snapshots whose creation times are renderable (year of the wall clock
reading within 0..9999, offset a whole number of minutes below 24 hours) and strings of any
content, reading the written file back by the standard quoting rules and skipping the header
row recovers, row for row and in order, the same five strings and the creation time truncated
to whole seconds. -/
theorem C4_roundtrip_renderable (d : Disk) (snapshots : List Snapshot)
    (hc : d.createErr = none)
    (hroom : (csv.encode (headers :: snapshots.map row)).length ≤ d.room)
    (ht : ∀ s ∈ snapshots, s.SnapshotCreateTime.renderable) :
    (writeSnapshotsToCSV d snapshots).1.content.bind readSnapshots
      = some (snapshots.map fun s =>
          some { s with SnapshotCreateTime := s.SnapshotCreateTime.truncSeconds }) := by
  obtain ⟨_, h2⟩ := writeSnapshotsToCSV_fits d snapshots hc hroom
  have h3 : (snapshots.map row).map readRow
      = snapshots.map fun s =>
          some { s with SnapshotCreateTime := s.SnapshotCreateTime.truncSeconds } := by
    rw [List.map_map]
    apply List.map_congr_left
    intro s hs
    rw [Function.comp_apply, readRow_row s (ht s hs)]
  rw [h2, Option.some_bind, readSnapshots_encode _ _ (rows_ne_nil snapshots), h3]

set_option maxRecDepth 100000 in
/-- C4 as amended, at a concrete input: strings with comma, quotes, leading space and line
break, and a creation time with a fraction of a second in a zone of +05:30. -/
theorem C4_roundtrip_renderable_witness :
    scenarioDisk.createErr = none
      ∧ (csv.encode (headers :: [scenarioSnapshot].map row)).length ≤ scenarioDisk.room
      ∧ scenarioSnapshot.SnapshotCreateTime.renderable
      ∧ (writeSnapshotsToCSV scenarioDisk [scenarioSnapshot]).1.content.bind readSnapshots
          = some [some { scenarioSnapshot with
              SnapshotCreateTime := { sec := 1730697000, nsec := 0, offset := 19800 } }] :=
  ⟨rfl, by decide, by decide,
    C4_roundtrip_renderable scenarioDisk [scenarioSnapshot] rfl (by decide) (by decide)⟩

set_option maxRecDepth 100000 in
/-- C4 as stated fails: a creation time in a location 30 seconds east of UTC is written with
the zone `+00:00` and reads back as an instant 30 seconds later, and a creation time in the
year 10000 is written with a five-digit year and does not read back at all. -/
theorem C4_counterexample :
    (writeSnapshotsToCSV scenarioDisk [secondsZoneSnapshot, farFutureSnapshot]).2 = none
      ∧ (writeSnapshotsToCSV scenarioDisk [secondsZoneSnapshot, farFutureSnapshot]).1.content.bind
          readSnapshots
        = some [some { secondsZoneSnapshot with
                        SnapshotCreateTime := { sec := 30, nsec := 0, offset := 0 } }, none]
      ∧ (writeSnapshotsToCSV scenarioDisk [secondsZoneSnapshot, farFutureSnapshot]).1.content.bind
          readSnapshots
        ≠ some ([secondsZoneSnapshot, farFutureSnapshot].map fun s =>
            some { s with SnapshotCreateTime := s.SnapshotCreateTime.truncSeconds })
      ∧ secondsZoneSnapshot.SnapshotCreateTime.Format = ascii "1970-01-01T00:00:30+00:00"
      ∧ farFutureSnapshot.SnapshotCreateTime.Format = ascii "10000-01-01T00:00:00Z" := by
  decide

/-- What `main` does once the identifier is given, by the outcome of each stage. -/
theorem main_stages (f : Flags) (w : World) (hid : f.identifier ≠ []) :
    main f w =
      match w.loadConfig f.profile with
      | some e => (Exit.panicked e,
          { w with calls := w.calls ++ [Call.LoadDefaultConfig (ascii "us-east-1") f.profile] })
      | none =>
        match fetchClusterSnapshots (w.clusterPages f.identifier) (w.startTime f.days) with
        | (_, some e) => (Exit.panicked e,
            { w with calls := w.calls ++ [Call.LoadDefaultConfig (ascii "us-east-1") f.profile,
                Call.fetchClusterSnapshots f.identifier] })
        | (clusterSnapshots, none) =>
          match fetchInstanceSnapshots (w.instancePages f.identifier)
              (w.startTime f.days) with
          | (_, some e) => (Exit.panicked e,
              { w with calls := w.calls ++ [Call.LoadDefaultConfig (ascii "us-east-1") f.profile,
                  Call.fetchClusterSnapshots f.identifier,
                  Call.fetchInstanceSnapshots f.identifier] })
          | (instanceSnapshots, none) =>
            match writeSnapshotsToCSV w.disk (clusterSnapshots ++ instanceSnapshots) with
            | (disk, some e) => (Exit.panicked e,
                { w with disk := disk,
                         calls := w.calls ++ [Call.LoadDefaultConfig (ascii "us-east-1") f.profile,
                           Call.fetchClusterSnapshots f.identifier,
                           Call.fetchInstanceSnapshots f.identifier,
                           Call.writeSnapshotsToCSV (ascii "rds_snapshots.csv")] })
            | (disk, none) => (Exit.returned,
                { w with disk := disk,
                         stdout := w.stdout
                           ++ ascii "Snapshot inventory written to rds_snapshots.csv\n",
                         calls := w.calls ++ [Call.LoadDefaultConfig (ascii "us-east-1") f.profile,
                           Call.fetchClusterSnapshots f.identifier,
                           Call.fetchInstanceSnapshots f.identifier,
                           Call.writeSnapshotsToCSV (ascii "rds_snapshots.csv")] }) := by
  unfold main
  rw [if_neg hid]
  simp only
  cases w.loadConfig f.profile with
  | some e => rfl
  | none =>
    simp only
    rcases fetchClusterSnapshots (w.clusterPages f.identifier) (w.startTime f.days)
      with ⟨cl, _ | e⟩
    · simp only
      rcases fetchInstanceSnapshots (w.instancePages f.identifier) (w.startTime f.days)
        with ⟨il, _ | e⟩
      · simp only
        rcases writeSnapshotsToCSV w.disk (cl ++ il) with ⟨disk, _ | e⟩
        · simp only [List.append_assoc]; rfl
        · simp only [List.append_assoc]; rfl
      · simp only [List.append_assoc]; rfl
    · simp only [List.append_assoc]; rfl

theorem fetchClusterSnapshots_scope (pages : List (PageResult DBClusterSnapshot))
    (startTime : Time) :
    ∀ s ∈ (fetchClusterSnapshots pages startTime).1, s.SnapshotScope = ascii "CLUSTER" := by
  intro s hs
  simp only [fetchClusterSnapshots, clusterLoop_eq] at hs
  cases he : firstError pages with
  | some e => simp [he] at hs
  | none =>
    simp only [he, List.nil_append, List.mem_filterMap] at hs
    obtain ⟨r, _, hrs⟩ := hs
    exact (acceptCluster_some startTime r s hrs).2.2

theorem fetchInstanceSnapshots_scope (pages : List (PageResult DBSnapshot))
    (startTime : Time) :
    ∀ s ∈ (fetchInstanceSnapshots pages startTime).1, s.SnapshotScope = ascii "INSTANCE" := by
  intro s hs
  simp only [fetchInstanceSnapshots, instanceLoop_eq] at hs
  cases he : firstError pages with
  | some e => simp [he] at hs
  | none =>
    simp only [he, List.nil_append, List.mem_filterMap] at hs
    obtain ⟨r, _, hrs⟩ := hs
    exact (acceptInstance_some startTime r s hrs).2.2

/-- C9: with `--identifier` omitted or empty, whatever `--days` and `--profile`, `main` prints
`--identifier is required` to standard output and exits with status 1, having resolved no
session, issued no fetch and touched no file; with a non-empty identifier it does not exit
with status 1, prints no such message, and goes on to resolve the session. -/
theorem C9_identifier_required (days : Int) (profile : GoString) (w : World) :
    main { identifier := [], days := days, profile := profile } w
        = (Exit.exited 1, { w with stdout := w.stdout ++ ascii "--identifier is required\n" })
      ∧ ∀ (c : Byte) (cs : GoString),
          (main { identifier := c :: cs, days := days, profile := profile } w).1 ≠ Exit.exited 1
          ∧ ((main { identifier := c :: cs, days := days, profile := profile } w).2.stdout
                = w.stdout
              ∨ (main { identifier := c :: cs, days := days, profile := profile } w).2.stdout
                = w.stdout ++ ascii "Snapshot inventory written to rds_snapshots.csv\n")
          ∧ ∃ rest, (main { identifier := c :: cs, days := days, profile := profile } w).2.calls
              = w.calls ++ Call.LoadDefaultConfig (ascii "us-east-1") profile :: rest := by
  refine ⟨rfl, ?_⟩
  intro c cs
  rw [main_stages _ w (List.cons_ne_nil c cs)]
  simp only
  cases w.loadConfig profile with
  | some e => exact ⟨by simp, Or.inl rfl, [], rfl⟩
  | none =>
    simp only
    rcases fetchClusterSnapshots (w.clusterPages (c :: cs)) (w.startTime days)
      with ⟨cl, _ | e⟩
    · simp only
      rcases fetchInstanceSnapshots (w.instancePages (c :: cs)) (w.startTime days)
        with ⟨il, _ | e⟩
      · simp only
        rcases writeSnapshotsToCSV w.disk (cl ++ il) with ⟨disk, _ | e⟩
        · exact ⟨by simp, Or.inr rfl, _, rfl⟩
        · exact ⟨by simp, Or.inl rfl, _, rfl⟩
      · exact ⟨by simp, Or.inl rfl, _, rfl⟩
    · exact ⟨by simp, Or.inl rfl, _, rfl⟩

/-- C8: when the cluster fetch or the instance fetch fails, `main` does not return normally,
never calls the writer, leaves the file as it was and prints no confirmation line, whatever
the cluster fetch had already returned. -/
theorem C8_fetch_failure_writes_nothing (f : Flags) (w : World)
    (h : (fetchClusterSnapshots (w.clusterPages f.identifier) (w.startTime f.days)).2
          ≠ none
        ∨ (fetchInstanceSnapshots (w.instancePages f.identifier) (w.startTime f.days)).2
          ≠ none) :
    (main f w).1 ≠ Exit.returned
      ∧ (main f w).2.disk = w.disk
      ∧ (∃ calls, (main f w).2.calls = w.calls ++ calls
          ∧ ∀ name, Call.writeSnapshotsToCSV name ∉ calls)
      ∧ ((main f w).2.stdout = w.stdout
          ∨ (main f w).2.stdout = w.stdout ++ ascii "--identifier is required\n") := by
  by_cases hid : f.identifier = []
  · have hm : main f w
        = (Exit.exited 1, { w with stdout := w.stdout ++ ascii "--identifier is required\n" }) := by
      simp only [main, hid, if_true]
    rw [hm]
    exact ⟨by simp, rfl, ⟨[], by simp, by simp⟩, Or.inr rfl⟩
  · rw [main_stages f w hid]
    cases w.loadConfig f.profile with
    | some e => exact ⟨by simp, rfl, ⟨_, rfl, by simp⟩, Or.inl rfl⟩
    | none =>
      simp only
      rcases hcl : fetchClusterSnapshots (w.clusterPages f.identifier)
        (w.startTime f.days) with ⟨cl, _ | e⟩
      · simp only
        rcases hil : fetchInstanceSnapshots (w.instancePages f.identifier)
          (w.startTime f.days) with ⟨il, _ | e⟩
        · rw [hcl, hil] at h
          simp at h
        · exact ⟨by simp, rfl, ⟨_, rfl, by simp⟩, Or.inl rfl⟩
      · exact ⟨by simp, rfl, ⟨_, rfl, by simp⟩, Or.inl rfl⟩

set_option maxRecDepth 100000 in
/-- C8 at a concrete input: the cluster fetch returns a record, the instance fetch fails. -/
theorem C8_fetch_failure_writes_nothing_witness :
    (fetchClusterSnapshots
        ((scenarioWorld [PageResult.err ⟨"throttled"⟩] scenarioDisk).clusterPages
          scenarioFlags.identifier)
        ((scenarioWorld [PageResult.err ⟨"throttled"⟩] scenarioDisk).startTime
          scenarioFlags.days)).1.length = 1
      ∧ (main scenarioFlags (scenarioWorld [PageResult.err ⟨"throttled"⟩] scenarioDisk)).1
          = Exit.panicked ⟨"throttled"⟩
      ∧ (main scenarioFlags (scenarioWorld [PageResult.err ⟨"throttled"⟩] scenarioDisk)).2.disk
          = scenarioDisk :=
  ⟨by decide, by decide,
    (C8_fetch_failure_writes_nothing scenarioFlags
      (scenarioWorld [PageResult.err ⟨"throttled"⟩] scenarioDisk)
      (Or.inr (by decide))).2.1⟩

/-- C5: when credentials resolve, both fetches succeed, the file is created and the device
has room for the text, `main` returns normally and the rows of the file after the header are
the rows of the cluster records in fetch order followed by the rows of the instance records
in fetch order; their number is the sum of the two counts, every row of the first group has
scope `CLUSTER` and every row of the second has scope `INSTANCE`. -/
theorem C5_cluster_rows_then_instance_rows (f : Flags) (w : World) (cl il : List Snapshot)
    (hid : f.identifier ≠ []) (hcfg : w.loadConfig f.profile = none)
    (hcl : fetchClusterSnapshots (w.clusterPages f.identifier) (w.startTime f.days)
      = (cl, none))
    (hil : fetchInstanceSnapshots (w.instancePages f.identifier) (w.startTime f.days)
      = (il, none))
    (hc : w.disk.createErr = none)
    (hroom : (csv.encode (headers :: (cl ++ il).map row)).length ≤ w.disk.room) :
    (main f w).1 = Exit.returned
      ∧ (main f w).2.disk.content.bind csv.parse
          = some (headers :: (cl.map row ++ il.map row))
      ∧ (cl.map row ++ il.map row).length = cl.length + il.length
      ∧ (∀ r ∈ cl.map row, r.get? 5 = some (ascii "CLUSTER"))
      ∧ (∀ r ∈ il.map row, r.get? 5 = some (ascii "INSTANCE")) := by
  obtain ⟨h1, h2⟩ := writeSnapshotsToCSV_fits w.disk (cl ++ il) hc hroom
  have hcs := fetchClusterSnapshots_scope (w.clusterPages f.identifier) (w.startTime f.days)
  have his := fetchInstanceSnapshots_scope (w.instancePages f.identifier)
    (w.startTime f.days)
  rw [hcl] at hcs
  rw [hil] at his
  rw [main_stages f w hid, hcfg]
  simp only [hcl, hil]
  rcases hw : writeSnapshotsToCSV w.disk (cl ++ il) with ⟨disk, e⟩
  rw [hw] at h1 h2
  simp only at h1 h2
  subst h1
  have hp := csv.parse_encode _ (rows_ne_nil (cl ++ il))
  rw [List.map_append] at hp h2
  simp only [h2, Option.some_bind, hp, List.length_append, List.length_map, true_and]
  refine ⟨?_, ?_⟩
  · intro r hr
    obtain ⟨s, hs, hrs⟩ := List.mem_map.mp hr
    subst hrs
    exact congrArg some (hcs s hs)
  · intro r hr
    obtain ⟨s, hs, hrs⟩ := List.mem_map.mp hr
    subst hrs
    exact congrArg some (his s hs)

set_option maxRecDepth 100000 in
/-- C5 at a concrete input: `--identifier db1 --days 7`, where the cluster listing yields a
record created 3 days ago and one created 10 days ago, and the instance listing yields, on
two pages, a record created 30 days ago, one created 1 day ago and one created 2 days ago:
one cluster record and two instance records are accepted, and the file holds the cluster row,
then the two instance rows in fetch order. -/
theorem C5_cluster_rows_then_instance_rows_witness :
    (fetchClusterSnapshots (scenarioBothWorld.clusterPages scenarioFlags.identifier)
        (scenarioBothWorld.startTime scenarioFlags.days)).1.length = 1
      ∧ (fetchInstanceSnapshots (scenarioBothWorld.instancePages scenarioFlags.identifier)
        (scenarioBothWorld.startTime scenarioFlags.days)).1.length = 2
      ∧ (main scenarioFlags scenarioBothWorld).1 = Exit.returned
      ∧ (main scenarioFlags scenarioBothWorld).2.disk.content.bind csv.parse
          = some [headers,
              [ascii "recent", ascii "arn:aws:rds:us-east-1:1:cluster-snapshot:recent",
               ascii "db1", ascii "2024-11-01T10:40:00Z", ascii "available", ascii "CLUSTER"],
              [ascii "i1", ascii "arn:aws:rds:us-east-1:1:snapshot:i1",
               ascii "db1", ascii "2024-11-03T10:40:00Z", ascii "creating", ascii "INSTANCE"],
              [ascii "i2", ascii "arn:aws:rds:us-east-1:1:snapshot:i2",
               ascii "db1", ascii "2024-11-02T10:40:00Z", ascii "creating", ascii "INSTANCE"]] :=
  ⟨by decide, by decide,
   (C5_cluster_rows_then_instance_rows scenarioFlags scenarioBothWorld
      (fetchClusterSnapshots (scenarioBothWorld.clusterPages scenarioFlags.identifier)
        (scenarioBothWorld.startTime scenarioFlags.days)).1
      (fetchInstanceSnapshots (scenarioBothWorld.instancePages scenarioFlags.identifier)
        (scenarioBothWorld.startTime scenarioFlags.days)).1
      (by decide) rfl (by decide) (by decide) rfl (by decide)).1,
   (C5_cluster_rows_then_instance_rows scenarioFlags scenarioBothWorld
      (fetchClusterSnapshots (scenarioBothWorld.clusterPages scenarioFlags.identifier)
        (scenarioBothWorld.startTime scenarioFlags.days)).1
      (fetchInstanceSnapshots (scenarioBothWorld.instancePages scenarioFlags.identifier)
        (scenarioBothWorld.startTime scenarioFlags.days)).1
      (by decide) rfl (by decide) (by decide) rfl (by decide)).2.1⟩

set_option maxRecDepth 100000 in
/-- C6, the code at a failing input: on a device that accepts no byte, the file is created,
the header and the row stay in the buffer, the deferred flush fails and its error is dropped:
`writeSnapshotsToCSV` returns nil with an empty file, and `main` prints its confirmation
line; with room for ten bytes the file holds the first ten bytes of the header and nil is
returned all the same. -/
theorem C6_flush_error_dropped :
    writeSnapshotsToCSV { scenarioDisk with room := 0 } [scenarioSnapshot]
        = ({ scenarioDisk with room := 0, content := some [], failed := true }, none)
      ∧ writeSnapshotsToCSV { scenarioDisk with room := 10 } [scenarioSnapshot]
        = ({ scenarioDisk with room := 0, content := some (ascii "SnapshotId"),
                               failed := true }, none)
      ∧ (main scenarioFlags (scenarioWorld [] { scenarioDisk with room := 0 })).1
        = Exit.returned
      ∧ (main scenarioFlags (scenarioWorld [] { scenarioDisk with room := 0 })).2.disk.content
        = some []
      ∧ (main scenarioFlags (scenarioWorld [] { scenarioDisk with room := 0 })).2.stdout
        = ascii "Snapshot inventory written to rds_snapshots.csv\n" := by
  decide

/-! ## The loop of WriteString ends within its fuel -/

theorem Disk.Write_cases (d : Disk) (s : GoString) :
    (d.Write s).2.2 ≠ none ∨ (d.Write s).1 = s.length := by
  unfold Disk.Write
  split_ifs
  · exact Or.inr rfl
  · exact Or.inl (by simp)

theorem bufio.Writer.Flush_cases (b : bufio.Writer) :
    b.Flush.1.err ≠ none ∨ b.Flush.1.buf = [] ∨ b.buf = [] := by
  unfold bufio.Writer.Flush
  cases he : b.err with
  | some e => exact Or.inl (by simp [he])
  | none =>
    simp only
    by_cases h0 : b.buf.length = 0
    · exact Or.inr (Or.inr (List.length_eq_zero.mp h0))
    · simp only [h0, if_false]
      rcases hw : b.wr.Write b.buf with ⟨n, wr, err⟩
      simp only
      split <;> simp

/-- The loop of `WriteString` ends by its condition within two rounds: more fuel than three
changes nothing. -/
theorem bufio.Writer.writeStringLoop_fuel (fuel : Nat) (b : bufio.Writer) (s : GoString) :
    bufio.Writer.writeStringLoop (fuel + 3) b s = bufio.Writer.writeStringLoop 3 b s := by
  have direct : ∀ (n m : Nat) (b1 : bufio.Writer) (s1 : GoString), b1.buf.length = 0 →
      bufio.Writer.writeStringLoop (n + 2) b1 s1 = bufio.Writer.writeStringLoop (m + 2) b1 s1 := by
    intro n m b1 s1 hb
    by_cases hc : s1.length > b1.Available ∧ b1.err = none
    · simp only [bufio.Writer.writeStringLoop, hc, and_self, if_true, hb]
      rcases hw : b1.wr.Write s1 with ⟨k, wr, err⟩
      simp only
      have hcases := Disk.Write_cases b1.wr s1
      rw [hw] at hcases
      simp only at hcases
      have hnc : ¬ ((s1.drop k).length > ({ b1 with wr := wr, err := err } : bufio.Writer).Available
          ∧ ({ b1 with wr := wr, err := err } : bufio.Writer).err = none) := by
        rcases hcases with h | h
        · exact fun hx => h hx.2
        · subst h; simp
      simp only [hnc, if_false]
    · rw [bufio.Writer.writeStringLoop_exit _ _ _ hc, bufio.Writer.writeStringLoop_exit _ _ _ hc]
  by_cases hc : s.length > b.Available ∧ b.err = none
  · by_cases hb : b.buf.length = 0
    · exact direct (fuel + 1) 1 b s hb
    · rw [bufio.Writer.writeStringLoop_fill _ b s hc.2 hb hc.1,
        show (3 : Nat) = 2 + 1 from rfl, bufio.Writer.writeStringLoop_fill _ b s hc.2 hb hc.1]
      rcases bufio.Writer.Flush_cases
        ({ b with buf := b.buf ++ s.take b.Available } : bufio.Writer) with h | h | h
      · rw [bufio.Writer.writeStringLoop_exit _ _ _ (fun hx => h hx.2),
          bufio.Writer.writeStringLoop_exit _ _ _ (fun hx => h hx.2)]
      · exact direct fuel 0 _ _ (by rw [h]; rfl)
      · simp at h
        exact absurd (by rw [h.1]; rfl) hb
  · rw [bufio.Writer.writeStringLoop_exit _ _ _ hc, bufio.Writer.writeStringLoop_exit _ _ _ hc]

/-- The fuel `WriteString` gives its loop is enough: with any more the loop returns the
same. -/
theorem bufio.Writer.WriteString_fuel (n : Nat) (b : bufio.Writer) (s : GoString) :
    bufio.Writer.writeStringLoop (s.length + 2 + n) b s
      = bufio.Writer.writeStringLoop (s.length + 2) b s := by
  cases s with
  | nil =>
    have hc : ¬ (([] : GoString).length > b.Available ∧ b.err = none) := by simp
    rw [bufio.Writer.writeStringLoop_exit _ _ _ hc, bufio.Writer.writeStringLoop_exit _ _ _ hc]
  | cons c rest =>
    have e1 : (c :: rest).length + 2 + n = (rest.length + n) + 3 := by
      simp only [List.length_cons]; omega
    have e2 : (c :: rest).length + 2 = rest.length + 3 := by
      simp only [List.length_cons]
    rw [e1, e2, bufio.Writer.writeStringLoop_fuel, bufio.Writer.writeStringLoop_fuel rest.length]

end PgUpgrade
